import Mathlib

/-!
Verification of the TreasureHunt static-site generator
(`generator/generate.js`), its client verification runtime
(`dist/js/game.js`) and the monitoring collector (`server/server.js`),
as a shallow embedding in Lean.

The raw hex digest primitives (node's `crypto.createHash('md5'|'sha256')`
and the browser's `crypto.subtle.digest('SHA-256', ...)`) are external
library collaborators; they are abstracted as a pair of string functions
(`HashPrims`).  Everything the repository builds on top of them — the
normalisation `str.toUpperCase().trim()`, the 16-character truncation of
the filename digest, the chain construction, the page templates and the
verification comparison — is translated from the source.
Markdown-to-HTML rendering is likewise external (tasks and teams carry
their already-rendered `html` fields).
-/

set_option maxRecDepth 8000

namespace TreasureHunt

/-- Abstract raw hex digest primitives (the crypto library collaborators).
`md5hex s` / `sha256hex s` stand for the full hex digests of `s`. -/
structure HashPrims where
  md5hex : String → String
  sha256hex : String → String

/-- JavaScript `String.prototype.trim`: strips leading and trailing
whitespace. -/
def jsTrim (s : String) : String :=
  String.mk (((s.toList.dropWhile Char.isWhitespace).reverse.dropWhile
    Char.isWhitespace).reverse)

/-- JavaScript `String.prototype.toUpperCase` (character-wise upper
casing). -/
def jsToUpper (s : String) : String := String.mk (s.toList.map Char.toUpper)

/-- The code normalisation applied inside both digest helpers of
`generate.js` and inside `sha256` of `game.js`: `str.toUpperCase().trim()`. -/
def normalize (s : String) : String := jsTrim (jsToUpper s)

/-- `generate.js` line 21: `md5(str)` — hex MD5 of the normalised code,
truncated to the first 16 characters (`.substring(0, 16)`). -/
def md5 (H : HashPrims) (s : String) : String := (H.md5hex (normalize s)).take 16

/-- `generate.js` line 25: `sha256(str)` — full hex SHA-256 of the
normalised code. -/
def sha256 (H : HashPrims) (s : String) : String := H.sha256hex (normalize s)

/-- A loaded task record (`loadTasks`): `code` is `null` when the
`code:` header is absent (terminal/finale tasks), `timeout_minutes` is
`null` when absent (`none` also models `NaN` from an unparseable value —
both are falsy and behave identically downstream), `html` is the
markdown-rendered body. -/
structure Task where
  id : String
  code : Option String
  timeout_minutes : Option Int
  html : String
  deriving Repr, DecidableEq

/-- A loaded team record as consumed by the generator loop: `startCode`
is `none` when the `start_code:` header is absent (JS `undefined`). -/
structure Team where
  id : String
  name : String
  startCode : Option String
  sequence : List String
  welcomeHtml : String
  deriving Repr, DecidableEq

/-- An organizer contact entry from `CONFIG.md` (`{name, phone,
telegram, whatsapp}`); absent fields are JS `undefined`. -/
structure Organizer where
  name : Option String
  phone : Option String
  telegram : Option String
  whatsapp : Option String
  deriving Repr, DecidableEq

/-- The global configuration produced by `loadConfig`.  The numeric
fields are `Option Int` with `none` modelling JS `NaN` (an unparseable
header value); the built-in defaults are plain numbers. -/
structure Config where
  admin_password : String
  default_timeout_minutes : Option Int
  hint_penalty_minutes : Option Int
  organizers : List Organizer
  deriving Repr, DecidableEq

/-- An uncaught JavaScript `TypeError` (property access on
`undefined`/`null`, or `toUpperCase` on a non-string), which aborts the
node process. -/
inductive JsError where
  | typeError
  deriving Repr, DecidableEq

/-- Task-table lookup `tasks[taskId]` (the table is keyed by id). -/
def findTask (tasks : List Task) (tid : String) : Option Task :=
  tasks.find? (fun t => t.id = tid)

/-- JS truthiness for an optional string: `undefined` and `''` are falsy. -/
def jsTruthy : Option String → Bool
  | none => false
  | some s => !s.isEmpty

/-- JS template interpolation of a possibly-`undefined` string. -/
def jsStr : Option String → String
  | none => "undefined"
  | some s => s

/-- JS `a || b` on numbers where `a` is `null`/`NaN` (`none`) or a
number (`some v`, falsy iff `0`). -/
def jsOrNum (a b : Option Int) : Option Int :=
  match a with
  | some v => if v = 0 then b else some v
  | none => b

/-- JS template interpolation `${v || d}` for a numeric value `v`
(`none` = `NaN`) with a literal default `d`. -/
def jsNumOr (v : Option Int) (d : Int) : String :=
  match v with
  | some x => if x = 0 then toString d else toString x
  | none => toString d

/-- JS template interpolation of a number that may be `NaN`. -/
def jsNum : Option Int → String
  | some x => toString x
  | none => "NaN"

/-- JS `String.prototype.padStart(n, c)`. -/
def jsPadStart (n : Nat) (c : Char) (s : String) : String :=
  if s.length ≥ n then s else String.mk (List.replicate (n - s.length) c) ++ s

/-- One entry of the `files` array built by the chain loop of
`generate()` (lines 1360–1390): the sequence position, the resolved
task and the derived page filename. -/
structure FileEntry where
  index : Nat
  taskId : String
  task : Task
  filename : String
  deriving Repr, DecidableEq

/-- The chain loop of `generate()` (lines 1360–1390), walking the
team's sequence with index `i` and carrying the previous sequence
element (`none` exactly when `i = 0`).  A missing task is reported and
skipped (`continue`); the filename of position `0` is derived from the
*first task's own* code, that of position `i > 0` from the code of the
task at position `i-1`; `md5` applied to a `null` code, or a property
access on a missing previous task, raises a `TypeError`. -/
def buildFilesGo (H : HashPrims) (tasks : List Task) :
    Nat → Option String → List String → Except JsError (List FileEntry)
  | _, _, [] => .ok []
  | i, prevId, tid :: rest =>
    match findTask tasks tid with
    | none => buildFilesGo H tasks (i + 1) (some tid) rest
    | some task =>
      let fnE : Except JsError String :=
        match prevId with
        | none =>
          -- i = 0: `s1_${md5(tasks[sequence[0]].code)}.html`
          match task.code with
          | none => .error .typeError
          | some c => .ok ("s1_" ++ md5 H c ++ ".html")
        | some pid =>
          -- i > 0: `s${i+1}_${md5(tasks[sequence[i-1]].code)}.html`
          match findTask tasks pid with
          | none => .error .typeError
          | some prev =>
            match prev.code with
            | none => .error .typeError
            | some c => .ok ("s" ++ toString (i + 1) ++ "_" ++ md5 H c ++ ".html")
      match fnE with
      | .error e => .error e
      | .ok fn =>
        match buildFilesGo H tasks (i + 1) (some tid) rest with
        | .error e => .error e
        | .ok entries => .ok (⟨i, tid, task, fn⟩ :: entries)

/-- The `files` array of `generate()` for one team. -/
def buildFiles (H : HashPrims) (tasks : List Task) (seq : List String) :
    Except JsError (List FileEntry) :=
  buildFilesGo H tasks 0 none seq

/-- JS `s.replace('@', '')`: removes the first `'@'` only. -/
def removeFirstAtChar : List Char → List Char
  | [] => []
  | c :: r => if c = '@' then r else c :: removeFirstAtChar r

/-- `org.telegram.replace('@', '')`. -/
def jsReplaceFirstAt (s : String) : String := String.mk (removeFirstAtChar s.toList)

/-- `org.whatsapp.replace(/[^0-9]/g, '')`. -/
def digitsOnly (s : String) : String := String.mk (s.toList.filter Char.isDigit)

/-- One organizer card of the `organizers.map(org => ...)` template in
`generateTaskPageHtml`. -/
def organizerCardHtml (org : Organizer) : String :=
"
                <div class=\"organizer-card\">
                    <strong>" ++ jsStr org.name ++ "</strong>
                    <div class=\"contact-links\">
                        " ++ (if jsTruthy org.phone then "<a href=\"tel:" ++ jsStr org.phone ++ "\" class=\"contact-link phone\">Call</a>" else "") ++ "
                        " ++ (if jsTruthy org.whatsapp then "<a href=\"https://wa.me/" ++ digitsOnly (jsStr org.whatsapp) ++ "\" class=\"contact-link whatsapp\" target=\"_blank\">WhatsApp</a>" else "") ++ "
                        " ++ (if jsTruthy org.telegram then "<a href=\"https://t.me/" ++ jsReplaceFirstAt (jsStr org.telegram) ++ "\" class=\"contact-link telegram\" target=\"_blank\">Telegram</a>" else "") ++ "
                    </div>
                </div>
                "

/-- `organizerContactsHtml` of `generateTaskPageHtml`: empty unless the
organizer list is non-empty. -/
def organizerContactsHtml (organizers : List Organizer) (hintPenaltyMinutes : Option Int) : String :=
  if organizers.length > 0 then
"
        <div id=\"timeout-help\" class=\"timeout-help hidden\">
            <p class=\"timeout-message\">Time\x27s up! Need help? Contact an organizer:</p>
            <div class=\"organizer-contacts\">
                " ++ String.join (organizers.map organizerCardHtml) ++ "
            </div>
            <button id=\"get-hint-btn\" class=\"hint-btn\">Get Answer (+" ++ jsNum hintPenaltyMinutes ++ " min penalty)</button>
        </div>
    "
  else ""

/-- The option record destructured at the top of `generateTaskPageHtml`. -/
structure TaskPageOptions where
  teamId : String
  teamName : String
  stepNumber : Nat
  totalSteps : Nat
  taskId : String
  taskHtml : String
  correctHashSHA256 : String
  nextTaskFile : String
  isFinalPage : Bool
  timeoutMinutes : Option Int
  hintPenaltyMinutes : Option Int
  organizers : List Organizer
  cacheBuster : Nat
  deriving Repr

/-- `formHtml` of `generateTaskPageHtml`: empty on the final page. -/
def taskFormHtml (o : TaskPageOptions) : String :=
  if o.isFinalPage then "" else
"
        <form id=\"code-form\" class=\"code-form\">
            <input
                type=\"text\"
                id=\"code-input\"
                class=\"code-input\"
                placeholder=\"Enter code\"
                autocomplete=\"off\"
                autofocus
            >
            <button type=\"submit\" class=\"submit-btn\">Submit</button>
        </form>
        <p id=\"error-message\" class=\"error-message hidden\">Incorrect code, try again!</p>
        " ++ organizerContactsHtml o.organizers o.hintPenaltyMinutes ++ "
    "

/-- `penaltyDisplayHtml` of `generateTaskPageHtml`. -/
def penaltyDisplayHtml (isFinalPage : Bool) : String :=
  if !isFinalPage then
"
        <div id=\"penalty-display\" class=\"penalty-display hidden\">
            <span>Penalty: +<span id=\"penalty-time\">0</span> min</span>
        </div>
    "
  else ""

/-- `trackingScript` of `generateTaskPageHtml` (the `TEAM_CONFIG` block). -/
def trackingScriptHtml (o : TaskPageOptions) : String :=
"
    <script>
        window.TEAM_CONFIG = \x7b
            teamId: \"" ++ o.teamId ++ "\",
            teamName: \"" ++ o.teamName ++ "\",
            step: " ++ toString o.stepNumber ++ ",
            taskId: \"" ++ o.taskId ++ "\"
        \x7d;
    </script>"

/-- `taskConfigScript` of `generateTaskPageHtml` (the `TASK_CONFIG`
block): empty on the final page. -/
def taskConfigScriptHtml (o : TaskPageOptions) : String :=
  if o.isFinalPage then "" else
"
    <script>
        window.TASK_CONFIG = \x7b
            correctHashSHA256: \"" ++ o.correctHashSHA256 ++ "\",
            nextTaskFile: \"" ++ o.nextTaskFile ++ "\",
            timeoutMinutes: " ++ jsNumOr o.timeoutMinutes 0 ++ ",
            hintPenaltyMinutes: " ++ jsNumOr o.hintPenaltyMinutes 5 ++ "
        \x7d;
    </script>"

/-- The `<span id="timer">` fragment of the header:
`!isFinalPage && timeoutMinutes ? ... : ''`. -/
def timerSpanHtml (isFinalPage : Bool) (timeoutMinutes : Option Int) : String :=
  match timeoutMinutes with
  | some v =>
    if !isFinalPage && v != 0 then
      "<span id=\"timer\" class=\"timer\">" ++ jsPadStart 2 '0' (toString v) ++ ":00</span>"
    else ""
  | none => ""

/-- `generateTaskPageHtml` (lines 200–298 of `generate.js`). -/
def generateTaskPageHtml (o : TaskPageOptions) : String :=
"<!DOCTYPE html>
<html lang=\"en\">
<head>
    <meta charset=\"UTF-8\">
    <meta name=\"viewport\" content=\"width=device-width, initial-scale=1.0\">
    <meta name=\"referrer\" content=\"no-referrer\">
    <title>" ++ o.teamName ++ " - Step " ++ toString o.stepNumber ++ "/" ++ toString o.totalSteps ++ "</title>
    <link rel=\"stylesheet\" href=\"../css/style.css?v=" ++ toString o.cacheBuster ++ "\">
</head>
<body>
    <div class=\"container\">
        <header class=\"header\">
            <span class=\"team-name\">" ++ o.teamName ++ "</span>
            <div class=\"header-right\">
                " ++ timerSpanHtml o.isFinalPage o.timeoutMinutes ++ "
                <span class=\"progress\">Step " ++ toString o.stepNumber ++ "/" ++ toString o.totalSteps ++ "</span>
            </div>
        </header>
        " ++ penaltyDisplayHtml o.isFinalPage ++ "

        <main class=\"task-content\">
            " ++ o.taskHtml ++ "
        </main>

        " ++ taskFormHtml o ++ "
    </div>
    " ++ (trackingScriptHtml o ++ taskConfigScriptHtml o ++ "
    <script>window.GAME_VERSION = \x27" ++ toString o.cacheBuster ++ "\x27;</script>
    <script src=\"../js/game.js?v=" ++ toString o.cacheBuster ++ "\"></script>
    ") ++ "
</body>
</html>"

/-- `generateStartPageHtml` (lines 300–343 of `generate.js`). -/
def generateStartPageHtml (teamId teamName welcomeHtml nextTaskFile : String)
    (cacheBuster : Nat) : String :=
"<!DOCTYPE html>
<html lang=\"en\">
<head>
    <meta charset=\"UTF-8\">
    <meta name=\"viewport\" content=\"width=device-width, initial-scale=1.0\">
    <meta name=\"referrer\" content=\"no-referrer\">
    <title>" ++ teamName ++ " - Treasure Hunt</title>
    <link rel=\"stylesheet\" href=\"../css/style.css?v=" ++ toString cacheBuster ++ "\">
</head>
<body>
    <div class=\"container\">
        <header class=\"header\">
            <span class=\"team-name\">" ++ teamName ++ "</span>
            <span class=\"progress\">Start</span>
        </header>

        <main class=\"task-content welcome\">
            " ++ welcomeHtml ++ "
        </main>

        <a href=\"" ++ nextTaskFile ++ "\" class=\"start-btn\" onclick=\"trackStart()\">Start Game</a>
    </div>

    <script>
        window.TEAM_CONFIG = \x7b
            teamId: \"" ++ teamId ++ "\",
            teamName: \"" ++ teamName ++ "\",
            step: 0,
            taskId: \"start\"
        \x7d;
    </script>
    <script>window.GAME_VERSION = \x27" ++ toString cacheBuster ++ "\x27;</script>
    <script src=\"../js/game.js?v=" ++ toString cacheBuster ++ "\"></script>
    <script>
        function trackStart() \x7b
            trackEvent(\x27game_start\x27);
        \x7d
    </script>
</body>
</html>"

/-- One emitted task page: the structured fields `generate()` passes to
`generateTaskPageHtml` plus the rendered document. -/
structure TaskPage where
  filename : String
  taskId : String
  stepNumber : Nat
  isFinal : Bool
  correctHash : String
  nextTaskFile : String
  timeoutMinutes : Option Int
  html : String
  deriving Repr

/-- The emitted start page of a team. -/
structure StartPage where
  filename : String
  nextTaskFile : String
  html : String
  deriving Repr

/-- All pages emitted for one team. -/
structure TeamPages where
  start : StartPage
  taskPages : List TaskPage
  deriving Repr

/-- One iteration body of the page-emission loop of `generate()`
(lines 1415–1450), for the entry at index `i` with the remaining
entries `rest`.  `i === files.length - 1` holds exactly when `rest` is
empty, so the last entry is the terminal page: its secret and next link
stay `''`.  For a non-terminal entry the secret is
`sha256(file.thisCode)` — a `TypeError` when the task's code is `null` —
and the next link is `files[i + 1].filename`.  The timeout is
`file.task.timeout_minutes || config.default_timeout_minutes`. -/
def emitHead (H : HashPrims) (cfg : Config) (teamId teamName : String)
    (totalSteps cacheBuster : Nat) (i : Nat) (file : FileEntry)
    (rest : List FileEntry) : Except JsError TaskPage :=
  let isLast := rest.isEmpty
  let hashNextE : Except JsError (String × String) :=
    if isLast then .ok ("", "")
    else
      match file.task.code with
      | none => .error .typeError
      | some c =>
        .ok (sha256 H c, (match rest with | [] => "" | nf :: _ => nf.filename))
  match hashNextE with
  | .error e => .error e
  | .ok (hash, next) =>
    let timeout := jsOrNum file.task.timeout_minutes cfg.default_timeout_minutes
    .ok
      { filename := file.filename
        taskId := file.taskId
        stepNumber := i + 1
        isFinal := isLast
        correctHash := hash
        nextTaskFile := next
        timeoutMinutes := timeout
        html := generateTaskPageHtml
          { teamId := teamId, teamName := teamName, stepNumber := i + 1,
            totalSteps := totalSteps, taskId := file.taskId,
            taskHtml := file.task.html, correctHashSHA256 := hash,
            nextTaskFile := next, isFinalPage := isLast,
            timeoutMinutes := timeout,
            hintPenaltyMinutes := cfg.hint_penalty_minutes,
            organizers := cfg.organizers, cacheBuster := cacheBuster } }

/-- The page-emission loop of `generate()` (lines 1415–1450), walking
`files` with index `i`; an error is the uncaught exception of the
iteration that raised it. -/
def emitPages (H : HashPrims) (cfg : Config) (teamId teamName : String)
    (totalSteps : Nat) (cacheBuster : Nat) :
    Nat → List FileEntry → Except JsError (List TaskPage)
  | _, [] => .ok []
  | i, file :: rest =>
    match emitHead H cfg teamId teamName totalSteps cacheBuster i file rest with
    | .error e => .error e
    | .ok page =>
      match emitPages H cfg teamId teamName totalSteps cacheBuster (i + 1) rest with
      | .error e => .error e
      | .ok pages => .ok (page :: pages)

/-- The per-team body of `generate()` (lines 1336–1450): derive the
start filename from the team's `startCode` (a `TypeError` when
`start_code` is absent), build the chain `files`, emit the start page —
`files[0].filename` raises a `TypeError` when `files` is empty — and
then every task page.  Pages are written in this order; an error is an
uncaught exception aborting the node process. -/
def genTeam (H : HashPrims) (cfg : Config) (tasks : List Task) (team : Team)
    (cacheBuster : Nat) : Except JsError TeamPages :=
  match team.startCode with
  | none => .error .typeError
  | some sc =>
    let startFilename := "start_" ++ md5 H sc ++ ".html"
    match buildFiles H tasks team.sequence with
    | .error e => .error e
    | .ok files =>
      match files with
      | [] => .error .typeError
      | f0 :: _ =>
        let startPage : StartPage :=
          { filename := startFilename
            nextTaskFile := f0.filename
            html := generateStartPageHtml team.id team.name team.welcomeHtml
              f0.filename cacheBuster }
        match emitPages H cfg team.id team.name team.sequence.length cacheBuster 0 files with
        | .error e => .error e
        | .ok pages => .ok ⟨startPage, pages⟩

/-- The team loop of `generate()` over all teams, recording the
player-facing files written under the output tree as `(path, content)`
pairs, in write order.  A `JsError` is an uncaught exception: the loop
stops, but files already written remain (the simplification that a team
crashing mid-emission contributes none of its pages is harmless for the
claims settled here, which use either fully-successful or
nothing-written-yet teams). -/
def generateTeamsPages (H : HashPrims) (cfg : Config) (tasks : List Task)
    (teams : List Team) (cacheBuster : Nat) :
    List (String × String) × Option JsError :=
  teams.foldl
    (fun acc team =>
      match acc.2 with
      | some _ => acc
      | none =>
        match genTeam H cfg tasks team cacheBuster with
        | .error e => (acc.1, some e)
        | .ok tp =>
          (acc.1
            ++ [(team.id ++ "/" ++ tp.start.filename, tp.start.html)]
            ++ tp.taskPages.map (fun p => (team.id ++ "/" ++ p.filename, p.html)),
            none))
    ([], none)

/-- An item of a frontmatter array: a plain scalar line (`- item`) or a
one-level object (`- key: value` followed by indented `key: value`
lines). -/
inductive FMItem where
  | scalar (s : String)
  | obj (fields : List (String × String))
  deriving Repr, DecidableEq

/-- A frontmatter value: a scalar string or an array of items. -/
inductive FMValue where
  | str (s : String)
  | arr (items : List FMItem)
  deriving Repr, DecidableEq

/-- The parsed frontmatter object, as an insertion-ordered key/value
association (JS object keyed by strings). -/
abbrev Frontmatter := List (String × FMValue)

/-- JS object assignment `o[k] = v`: overwrite in place, else append. -/
def setKey (fm : Frontmatter) (k : String) (v : FMValue) : Frontmatter :=
  if fm.any (fun p => p.1 = k) then
    fm.map (fun p => if p.1 = k then (k, v) else p)
  else fm ++ [(k, v)]

/-- Same assignment for the string fields of a nested object. -/
def setField (fs : List (String × String)) (k v : String) : List (String × String) :=
  if fs.any (fun p => p.1 = k) then
    fs.map (fun p => if p.1 = k then (k, v) else p)
  else fs ++ [(k, v)]

/-- Regex `\w`: `[A-Za-z0-9_]`. -/
def isWordChar (c : Char) : Bool := c.isAlphanum || c == '_'

/-- Regex `^(\w+):\s*(.*)$` — a header line `key: value`; the greedy
`\s*` leaves the captured value without leading whitespace. -/
def lineKeyMatch (line : String) : Option (String × String) :=
  let cs := line.toList
  let key := cs.takeWhile isWordChar
  match cs.drop key.length with
  | ':' :: r =>
    if key.isEmpty then none
    else some (String.mk key, String.mk (r.dropWhile Char.isWhitespace))
  | _ => none

/-- Regex `^\s+-\s+(.*)$` — an array item line. -/
def lineArrayItemMatch (line : String) : Option String :=
  let cs := line.toList
  let ws1 := cs.takeWhile Char.isWhitespace
  if ws1.isEmpty then none
  else
    match cs.drop ws1.length with
    | '-' :: r =>
      let ws2 := r.takeWhile Char.isWhitespace
      if ws2.isEmpty then none else some (String.mk (r.drop ws2.length))
    | _ => none

/-- Regex `^\s+(\w+):\s*(.*)$` — a nested `key: value` line inside an
array object. -/
def lineNestedKvMatch (line : String) : Option (String × String) :=
  let cs := line.toList
  let ws1 := cs.takeWhile Char.isWhitespace
  if ws1.isEmpty then none
  else
    let rest := cs.drop ws1.length
    let key := rest.takeWhile isWordChar
    match rest.drop key.length with
    | ':' :: r =>
      if key.isEmpty then none
      else some (String.mk key, String.mk (r.dropWhile Char.isWhitespace))
    | _ => none

/-- Parser state of `parseMarkdownWithFrontmatter`'s line loop:
`currentKey` is `some k` exactly when `currentArray` is non-null (its
items accumulate in `items` and are flushed into the object when a new
top-level key or the end of input is reached — JS mutates the stored
array in place, which is observationally the same); `inObj` holds when
`currentObject` is non-null, i.e. the last pushed item is an open
object. -/
structure PState where
  fm : Frontmatter
  currentKey : Option String
  items : List FMItem
  inObj : Bool

/-- Flush a pending array into the frontmatter object. -/
def flushP (st : PState) : Frontmatter :=
  match st.currentKey with
  | none => st.fm
  | some k => setKey st.fm k (.arr st.items)

/-- Add a nested `key: value` to the last (open) object item. -/
def appendToLastObj (items : List FMItem) (k v : String) : List FMItem :=
  match items.getLast? with
  | some (.obj fs) => items.dropLast ++ [.obj (setField fs k v)]
  | _ => items

/-- One iteration of the `for (const line of lines)` loop of
`parseMarkdownWithFrontmatter` (lines 45–85 of `generate.js`). -/
def stepLine (st : PState) (line : String) : PState :=
  match lineKeyMatch line with
  | some (k, v) =>
    if v = "" then
      { fm := flushP st, currentKey := some k, items := [], inObj := false }
    else
      { fm := setKey (flushP st) k (.str v), currentKey := none, items := [],
        inObj := false }
  | none =>
    match st.currentKey with
    | none => st
    | some _ =>
      match lineArrayItemMatch line with
      | some itemValue =>
        match lineKeyMatch itemValue with
        | some (k2, v2) =>
          { st with items := st.items ++ [.obj [(k2, v2)]], inObj := true }
        | none =>
          { st with items := st.items ++ [.scalar itemValue], inObj := false }
      | none =>
        if st.inObj then
          match lineNestedKvMatch line with
          | some (k2, v2) => { st with items := appendToLastObj st.items k2 v2 }
          | none => st
        else st

/-- Parse a frontmatter block (the lines between the `---` fences). -/
def parseFrontmatterLines (lines : List String) : Frontmatter :=
  flushP (lines.foldl stepLine ⟨[], none, [], false⟩)

/-- Boolean prefix test on character lists. -/
def isPrefixB : List Char → List Char → Bool
  | [], _ => true
  | _ :: _, [] => false
  | a :: as, b :: bs => a == b && isPrefixB as bs

/-- Boolean contiguous-occurrence test on character lists. -/
def isInfixB (needle : List Char) : List Char → Bool
  | [] => needle.isEmpty
  | c :: rest => isPrefixB needle (c :: rest) || isInfixB needle rest

/-- Split a character list at the first contiguous occurrence of
`delim` (assumed non-empty), returning the parts before and after it. -/
def splitAtInfix (delim : List Char) : List Char → Option (List Char × List Char)
  | [] => none
  | c :: rest =>
    if isPrefixB delim (c :: rest) then some ([], (c :: rest).drop delim.length)
    else
      match splitAtInfix delim rest with
      | some (a, b) => some (c :: a, b)
      | none => none

/-- JS `str.split('\n')`. -/
def splitNl : List Char → List (List Char)
  | [] => [[]]
  | c :: rest =>
    if c = '\n' then [] :: splitNl rest
    else
      match splitNl rest with
      | [] => [[c]]
      | l :: ls => (c :: l) :: ls

/-- `parseMarkdownWithFrontmatter` (lines 29–88): the anchored regex
`^---\n([\s\S]*?)\n---\n([\s\S]*)$` captures the region between a
leading `---\n` and the first following `\n---\n` as the frontmatter
and the rest as the body (trimmed); without a match the frontmatter is
the empty object and the body is the whole content.  This function is
total: a malformed header never raises, it just parses to fewer keys. -/
def parseMarkdownWithFrontmatter (content : String) : Frontmatter × String :=
  let cs := content.toList
  if isPrefixB "---\n".toList cs then
    match splitAtInfix "\n---\n".toList (cs.drop 4) with
    | none => ([], content)
    | some (fmCs, bodyCs) =>
      (parseFrontmatterLines ((splitNl fmCs).map String.mk),
       jsTrim (String.mk bodyCs))
  else ([], content)

/-- JS `a || d` for an optional scalar string field (`''` is falsy). -/
def jsOrStr (a : Option String) (d : String) : String :=
  match a with
  | some s => if s = "" then d else s
  | none => d

/-- Read a scalar frontmatter field.  A list-valued field where the
generator expects a scalar is not modelled (JS would carry the raw
array and fail later when it is hashed or interpolated); the theorems
below only exercise absent or scalar fields. -/
def fmStrField (fm : Frontmatter) (k : String) : Option String :=
  match fm.lookup k with
  | some (.str s) => some s
  | _ => none

/-- JS `parseInt(s)` in base 10: skip leading whitespace, optional
sign, then a maximal digit run; `none` models `NaN`. -/
def jsParseInt (s : String) : Option Int :=
  let cs := s.toList.dropWhile Char.isWhitespace
  let sr : Int × List Char :=
    match cs with
    | '-' :: r => (-1, r)
    | '+' :: r => (1, r)
    | _ => (1, cs)
  let ds := sr.2.takeWhile Char.isDigit
  if ds.isEmpty then none
  else some (sr.1 * ds.foldl (fun a c => a * 10 + ((c.toNat : Int) - 48)) 0)

/-- A team record as constructed by `loadTeams` (lines 147–167) from one
`teams/*.md` file: `name` defaults to the id (`frontmatter.name ||
teamId`), `startCode` has no default, and `sequence` is
`frontmatter.sequence || []` — a missing (or falsy) sequence silently
becomes the empty array, and a scalar `sequence:` line is kept as a raw
string; no branch of the loader ever raises. -/
structure TeamRec where
  id : String
  name : String
  startCode : Option String
  sequenceVal : FMValue
  welcomeBody : String
  deriving Repr, DecidableEq

/-- `loadTeams`'s per-file record construction (markdown rendering of
the body is external and omitted; `welcomeBody` is the raw body). -/
def parseTeamFile (teamId content : String) : TeamRec :=
  let p := parseMarkdownWithFrontmatter content
  { id := teamId
    name := jsOrStr (fmStrField p.1 "name") teamId
    startCode := fmStrField p.1 "start_code"
    sequenceVal :=
      match p.1.lookup "sequence" with
      | none => .arr []
      | some (.str s) => if s = "" then .arr [] else .str s
      | some v => v
    welcomeBody := p.2 }

/-- Convert one frontmatter item to the organizer record the templates
read (`org.name`, `org.phone`, `org.telegram`, `org.whatsapp`); a
scalar item has every field `undefined`. -/
def toOrganizer : FMItem → Organizer
  | .obj fs => ⟨fs.lookup "name", fs.lookup "phone", fs.lookup "telegram", fs.lookup "whatsapp"⟩
  | .scalar _ => ⟨none, none, none, none⟩

/-- The built-in configuration defaults of `loadConfig` (lines 170–175). -/
def configDefaults : Config :=
  { admin_password := "treasure2024"
    default_timeout_minutes := some 15
    hint_penalty_minutes := some 5
    organizers := [] }

/-- `loadConfig` (lines 169–194): `none` models an absent `CONFIG.md`;
otherwise each recognised field falls back to its default when missing
or falsy, and the numeric fields go through `parseInt`. -/
def loadConfig (content? : Option String) : Config :=
  match content? with
  | none => configDefaults
  | some content =>
    let fm := (parseMarkdownWithFrontmatter content).1
    { admin_password := jsOrStr (fmStrField fm "admin_password")
        configDefaults.admin_password
      default_timeout_minutes :=
        match fmStrField fm "default_timeout_minutes" with
        | some s => if s = "" then configDefaults.default_timeout_minutes
                    else jsParseInt s
        | none => configDefaults.default_timeout_minutes
      hint_penalty_minutes :=
        match fmStrField fm "hint_penalty_minutes" with
        | some s => if s = "" then configDefaults.hint_penalty_minutes
                    else jsParseInt s
        | none => configDefaults.hint_penalty_minutes
      organizers :=
        match fm.lookup "organizers" with
        | some (.arr items) => items.map toOrganizer
        | _ => configDefaults.organizers }

/-- Outcome of one submission in the client runtime. -/
inductive VerifyResult where
  | accepted
  | rejected
  deriving Repr, DecidableEq

/-- `verifyAndRedirect` of `dist/js/game.js` (lines 224–252), reduced to
its accept/reject outcome: an all-whitespace submission is rejected up
front; otherwise the client hash `sha256(code)` — the hex SHA-256 of
`code.toUpperCase().trim()` (lines 200–205) — is compared against the
embedded `TASK_CONFIG.correctHashSHA256`. -/
def verifyAndRedirect (H : HashPrims) (correctHashSHA256 : String)
    (code : String) : VerifyResult :=
  if jsTrim code = "" then .rejected
  else if H.sha256hex (normalize code) = correctHashSHA256 then .accepted
  else .rejected

/-- Event types the collector distinguishes (`server/server.js`). -/
inductive EventType where
  | page_view
  | code_attempt
  | game_complete
  | other
  deriving Repr, DecidableEq

/-- An inbound `/api/event` notification, restricted to the fields the
per-team status update reads; `step = none` models an absent field. -/
structure GameEvent where
  type : EventType
  step : Option Int
  taskId : Option String
  success : Bool
  deriving Repr, DecidableEq

/-- The per-team record of the collector's `teamStatus` map, restricted
to the progress fields (lastSeen, location and the attempts log are
orthogonal to the settled claims). -/
structure TeamStatus where
  currentStep : Int
  currentTask : Option String
  completed : Bool
  deriving Repr, DecidableEq

/-- A fresh `teamStatus[teamId]` entry (`currentStep: 0`). -/
def initTeamStatus : TeamStatus := ⟨0, none, false⟩

/-- The per-team state update of `app.post('/api/event')`
(`server/server.js` lines 59–87): a `page_view` moves `currentStep` only
when `(step || 0) >= (team.currentStep || 0)` (and then to
`step || team.currentStep`); a successful `code_attempt` moves it to
`step + 1` only when that is strictly greater; nothing else touches it. -/
def updateTeamStatus (team : TeamStatus) (e : GameEvent) : TeamStatus :=
  match e.type with
  | .page_view =>
    if e.step.getD 0 ≥ team.currentStep then
      { team with
        currentStep :=
          match e.step with
          | some v => if v = 0 then team.currentStep else v
          | none => team.currentStep
        currentTask := e.taskId }
    else team
  | .code_attempt =>
    if e.success then
      let newStep := e.step.getD 0 + 1
      if newStep > team.currentStep then { team with currentStep := newStep }
      else team
    else team
  | .game_complete => { team with completed := true }
  | .other => team

/-- One entry of the `teamStartUrls` list accumulated by `generate()`. -/
structure TeamStartUrl where
  id : String
  name : String
  url : String
  deriving Repr, DecidableEq

/-- One row of the admin table of `generateAdminHtml`. -/
def adminTeamRow (t : TeamStartUrl) : String :=
  "<tr><td>" ++ t.name ++ "</td><td><code>" ++ t.id ++ "</code></td><td><a href=\"" ++ t.url ++ "\" target=\"_blank\">" ++ t.url ++ "</a></td></tr>"

/-- `generateAdminHtml` (lines 370–448 of `generate.js`): the operator
index, gated client-side by comparing the entered password's SHA-256
against the embedded `ADMIN_HASH = sha256(adminPassword)`. -/
def generateAdminHtml (H : HashPrims) (teamStartUrls : List TeamStartUrl)
    (adminPassword : String) : String :=
  let passwordHash := sha256 H adminPassword
  let teamLinksHtml := String.intercalate "\n                    "
    (teamStartUrls.map adminTeamRow)
"<!DOCTYPE html>
<html lang=\"en\">
<head>
    <meta charset=\"UTF-8\">
    <meta name=\"viewport\" content=\"width=device-width, initial-scale=1.0\">
    <title>Admin - Treasure Hunt</title>
    <link rel=\"stylesheet\" href=\"css/style.css\">
</head>
<body>
    <div class=\"container admin\">
        <header class=\"header\">
            <span class=\"team-name\">Organizer Panel</span>
        </header>

        <div id=\"login-section\">
            <main class=\"task-content\">
                <h1>Organizer Access</h1>
                <p>Enter the admin password to view team start links.</p>
            </main>
            <form id=\"password-form\" class=\"code-form\">
                <input type=\"password\" id=\"password-input\" class=\"code-input\" placeholder=\"Password\" autocomplete=\"off\" autofocus>
                <button type=\"submit\" class=\"submit-btn\">Enter</button>
            </form>
            <p id=\"error-message\" class=\"error-message hidden\">Incorrect password</p>
        </div>

        <div id=\"admin-content\" class=\"hidden\">
            <main class=\"task-content\">
                <h1>Team Start Links</h1>
                <p class=\"warning\">Share each link only with the corresponding team!</p>
                <table class=\"admin-table\">
                    <thead>
                        <tr><th>Team</th><th>ID</th><th>Start URL</th></tr>
                    </thead>
                    <tbody>
                    " ++ teamLinksHtml ++ "
                    </tbody>
                </table>
            </main>
        </div>
    </div>

    <script>
        const ADMIN_HASH = \"" ++ passwordHash ++ "\";

        async function sha256(message) \x7b
            const msgBuffer = new TextEncoder().encode(message.toUpperCase().trim());
            const hashBuffer = await crypto.subtle.digest(\x27SHA-256\x27, msgBuffer);
            const hashArray = Array.from(new Uint8Array(hashBuffer));
            return hashArray.map(b => b.toString(16).padStart(2, \x270\x27)).join(\x27\x27);
        \x7d

        document.getElementById(\x27password-form\x27).addEventListener(\x27submit\x27, async (e) => \x7b
            e.preventDefault();
            const password = document.getElementById(\x27password-input\x27).value;
            const hash = await sha256(password);

            if (hash === ADMIN_HASH) \x7b
                document.getElementById(\x27login-section\x27).classList.add(\x27hidden\x27);
                document.getElementById(\x27admin-content\x27).classList.remove(\x27hidden\x27);
            \x7d else \x7b
                document.getElementById(\x27error-message\x27).classList.remove(\x27hidden\x27);
                document.getElementById(\x27password-input\x27).value = \x27\x27;
                setTimeout(() => \x7b
                    document.getElementById(\x27error-message\x27).classList.add(\x27hidden\x27);
                \x7d, 2000);
            \x7d
        \x7d);
    </script>
</body>
</html>"

/-- One row of the all-task-codes table of `generateTestingHtml`
(tasks whose code is truthy and not the literal string `'null'`). -/
def testingTaskRow (t : Task) : String :=
  "<tr><td><code>" ++ t.id ++ "</code></td><td><code>" ++ jsStr t.code ++ "</code></td></tr>"

/-- The filter `task.code && task.code !== 'null'` of
`generateTestingHtml` and `generateTestingDoc`. -/
def hasRealCode (t : Task) : Bool :=
  match t.code with
  | some c => !c.isEmpty && c != "null"
  | none => false

/-- One walkthrough row for step `i+1` of a team in
`generateTestingHtml`: code is `task?.code || '-'`, the next task is
`(end)` on the last step, and a missing URL interpolates as
`undefined`. -/
def testingFlowRow (tasks : List Task) (seq : List String)
    (taskUrls : List String) (i : Nat) : String :=
  let taskId := seq.getD i ""
  let code :=
    match findTask tasks taskId with
    | none => "-"
    | some t => jsOrStr t.code "-"
  let nextTask := if i < seq.length - 1 then seq.getD (i + 1) "" else "(end)"
  let taskUrl := jsStr taskUrls[i]?
  "<tr><td>" ++ toString (i + 1) ++ "</td><td><code>" ++ code ++ "</code></td><td>" ++ nextTask ++ "</td><td><a href=\"" ++ taskUrl ++ "\" target=\"_blank\">" ++ taskUrl ++ "</a></td></tr>"

/-- One team section of `generateTestingHtml`. -/
def testingTeamSection (tasks : List Task) (teamStartUrls : List TeamStartUrl)
    (teamTaskUrls : List (String × List String)) (team : Team) : String :=
  let startUrl := teamStartUrls.find? (fun t => t.id = team.id)
  let taskUrls := (teamTaskUrls.lookup team.id).getD []
  let flowSteps :=
    ("<tr><td>Start</td><td>(click button)</td><td>" ++ jsStr team.sequence[0]? ++ "</td><td><a href=\"" ++ jsStr (startUrl.map TeamStartUrl.url) ++ "\" target=\"_blank\">" ++ jsStr (startUrl.map TeamStartUrl.url) ++ "</a></td></tr>")
    :: (List.range team.sequence.length).map (testingFlowRow tasks team.sequence taskUrls)
"
                <div class=\"team-section\">
                    <h3>" ++ team.name ++ " <small>(" ++ team.id ++ ")</small></h3>
                    <p><strong>Sequence:</strong> " ++ String.intercalate " → " team.sequence ++ "</p>
                    <table class=\"admin-table\">
                        <thead><tr><th>Step</th><th>Code</th><th>Next Task</th><th>URL</th></tr></thead>
                        <tbody>" ++ String.intercalate "\n                            " flowSteps ++ "</tbody>
                    </table>
                </div>"

/-- `generateTestingHtml` (lines 450–570 of `generate.js`): the
password-gated testing dashboard listing every code and URL; gated by
the same `ADMIN_HASH = sha256(adminPassword)` comparison as the admin
page. -/
def generateTestingHtml (H : HashPrims) (teams : List Team)
    (tasks : List Task) (teamStartUrls : List TeamStartUrl)
    (teamTaskUrls : List (String × List String)) (adminPassword : String) :
    String :=
  let passwordHash := sha256 H adminPassword
  let taskRows := String.intercalate "\n                        "
    ((tasks.filter hasRealCode).map testingTaskRow)
  let teamSections := String.intercalate "\n"
    (teams.map (testingTeamSection tasks teamStartUrls teamTaskUrls))
"<!DOCTYPE html>
<html lang=\"en\">
<head>
    <meta charset=\"UTF-8\">
    <meta name=\"viewport\" content=\"width=device-width, initial-scale=1.0\">
    <title>Testing - Treasure Hunt</title>
    <link rel=\"stylesheet\" href=\"css/style.css\">
    <style>
        .testing \x7b max-width: 1100px; \x7d
        .team-section \x7b margin: 30px 0; padding: 20px; background: #f9f9f9; border-radius: 10px; \x7d
        .team-section h3 \x7b margin-bottom: 10px; color: #667eea; \x7d
        .team-section small \x7b color: #888; font-weight: normal; \x7d
        .team-section p \x7b margin: 5px 0; \x7d
        section \x7b margin: 30px 0; \x7d
        .admin-table a \x7b word-break: break-all; \x7d
    </style>
</head>
<body>
    <div class=\"container testing\">
        <header class=\"header\">
            <span class=\"team-name\">Testing Dashboard</span>
        </header>

        <div id=\"login-section\">
            <main class=\"task-content\">
                <h1>Testing Access</h1>
                <p>Enter the admin password to view all codes and URLs.</p>
            </main>
            <form id=\"password-form\" class=\"code-form\">
                <input type=\"password\" id=\"password-input\" class=\"code-input\" placeholder=\"Password\" autocomplete=\"off\" autofocus>
                <button type=\"submit\" class=\"submit-btn\">Enter</button>
            </form>
            <p id=\"error-message\" class=\"error-message hidden\">Incorrect password</p>
        </div>

        <div id=\"testing-content\" class=\"hidden\">
            <main class=\"task-content\">
                <h1>Game Testing Reference</h1>
                <p class=\"warning\">This page contains all codes and URLs. Do not share with players!</p>

                <section>
                    <h2>All Task Codes</h2>
                    <table class=\"admin-table\">
                        <thead><tr><th>Task ID</th><th>Code</th></tr></thead>
                        <tbody>
                        " ++ taskRows ++ "
                        </tbody>
                    </table>
                </section>

                <section>
                    <h2>Team Walkthroughs</h2>
                    " ++ teamSections ++ "
                </section>
            </main>
        </div>
    </div>

    <script>
        const ADMIN_HASH = \"" ++ passwordHash ++ "\";

        async function sha256(message) \x7b
            const msgBuffer = new TextEncoder().encode(message.toUpperCase().trim());
            const hashBuffer = await crypto.subtle.digest(\x27SHA-256\x27, msgBuffer);
            const hashArray = Array.from(new Uint8Array(hashBuffer));
            return hashArray.map(b => b.toString(16).padStart(2, \x270\x27)).join(\x27\x27);
        \x7d

        document.getElementById(\x27password-form\x27).addEventListener(\x27submit\x27, async (e) => \x7b
            e.preventDefault();
            const password = document.getElementById(\x27password-input\x27).value;
            const hash = await sha256(password);

            if (hash === ADMIN_HASH) \x7b
                document.getElementById(\x27login-section\x27).classList.add(\x27hidden\x27);
                document.getElementById(\x27testing-content\x27).classList.remove(\x27hidden\x27);
            \x7d else \x7b
                document.getElementById(\x27error-message\x27).classList.remove(\x27hidden\x27);
                document.getElementById(\x27password-input\x27).value = \x27\x27;
                setTimeout(() => \x7b
                    document.getElementById(\x27error-message\x27).classList.add(\x27hidden\x27);
                \x7d, 2000);
            \x7d
        \x7d);
    </script>
</body>
</html>"

/-- Substring test (`needle` occurs contiguously in `haystack`). -/
def containsStr (haystack needle : String) : Bool :=
  isInfixB needle.toList haystack.toList

/-- Identity hash primitives: a degenerate but legal instantiation used
to evaluate the embedding on concrete inputs (every structural theorem
below is proved for arbitrary primitives). -/
def hashId : HashPrims := ⟨id, id⟩

/-- The cache-buster-independent content of an emitted page: filename,
secret, next link, step number, terminality and timeout (everything but
the rendered HTML, which embeds the token). -/
def pageSpecOf (p : TaskPage) : String × String × String × Nat × Bool × Option Int :=
  (p.filename, p.correctHash, p.nextTaskFile, p.stepNumber, p.isFinal, p.timeoutMinutes)

/-- The filenames a generation run produces for a team (start page
first), `none` when the run crashes. -/
def runFilenames : Except JsError TeamPages → Option (String × List String)
  | .ok tp => some (tp.start.filename, tp.taskPages.map TaskPage.filename)
  | .error _ => none

/-- The embedded unlock secrets a generation run produces for a team,
`none` when the run crashes. -/
def runSecrets : Except JsError TeamPages → Option (List String)
  | .ok tp => some (tp.taskPages.map TaskPage.correctHash)
  | .error _ => none

/-- The task id whose code gates the chain entry at offset `j` of the
remaining sequence `seq`, when the walk arrived with previous element
`prev` (`none` exactly at the start of the walk). -/
def gateId (prev : Option String) (seq : List String) (j : Nat) : String :=
  match j, prev with
  | 0, some pid => pid
  | 0, none => seq.getD 0 ""
  | Nat.succ j', _ => seq.getD j' ""

/-- Three-task fixture used to exercise the embedding on concrete
inputs (the last task is terminal: `code: null`). -/
def tasksA : List Task :=
  [⟨"t1", some "AAA", none, "<p>a</p>"⟩,
   ⟨"t2", some "BBB", none, "<p>b</p>"⟩,
   ⟨"t3", none, none, "<p>c</p>"⟩]

/-- Team fixture walking `tasksA` in order. -/
def teamA : Team := ⟨"team1", "Reds", some "SSS", ["t1", "t2", "t3"], "<p>w</p>"⟩

/-- Task table with a single task, used to exercise a dangling
reference. -/
def tasksC5 : List Task := [⟨"t1", some "A", none, "<p>x</p>"⟩]

/-- Team referencing the missing task `t2` after the existing `t1`. -/
def teamC5 : Team := ⟨"team1", "Reds", some "S", ["t1", "t2"], "<p>w</p>"⟩

/-- A single terminal task (`code: null`), as the claim describes. -/
def taskNullCode : Task := ⟨"t1", none, none, "<p>solo</p>"⟩

/-- A single task that carries a code. -/
def taskSoloCode : Task := ⟨"t1", some "gnome42", none, "<p>solo</p>"⟩

/-- A team whose sequence is the single task `t1`. -/
def teamSolo : Team := ⟨"team1", "Reds", some "START1", ["t1"], "<p>w</p>"⟩

/-- The start page's own next link of a run, `none` when the run
crashes. -/
def startNextOf : Except JsError TeamPages → Option String
  | .ok tp => some tp.start.nextTaskFile
  | .error _ => none

/-- Terminality data `(isFinal, correctHash, nextTaskFile)` of every
emitted task page of a run. -/
def finalFlagsOf : Except JsError TeamPages → List (Bool × String × String)
  | .ok tp => tp.taskPages.map (fun p => (p.isFinal, p.correctHash, p.nextTaskFile))
  | .error _ => []

/-- Two tasks agree on everything observable except their codes, whose
filename- and secret-derivations nevertheless coincide. -/
def TaskMatch (H : HashPrims) (t t' : Task) : Prop :=
  t.id = t'.id ∧ t.html = t'.html ∧ t.timeout_minutes = t'.timeout_minutes ∧
  (t.code = none ↔ t'.code = none) ∧
  (∀ c c', t.code = some c → t'.code = some c' →
    md5 H c = md5 H c' ∧ sha256 H c = sha256 H c')

/-- Two chain entries agree except for the codes inside their tasks. -/
def EntryMatch (H : HashPrims) (e e' : FileEntry) : Prop :=
  e.index = e'.index ∧ e.taskId = e'.taskId ∧ e.filename = e'.filename ∧
  TaskMatch H e.task e'.task

/-- Task table whose first code is the string `div`, colliding with the
fixed HTML template text. -/
def tasksDiv : List Task :=
  [⟨"t1", some "div", none, "<p>under the bench</p>"⟩,
   ⟨"t2", some "FOO", none, "<p>x</p>"⟩]

/-- Team walking `tasksDiv`. -/
def teamDiv : Team := ⟨"team1", "Reds", some "SSS", ["t1", "t2"], "Welcome!"⟩

/-- The start page HTML of a run (empty when the run crashes). -/
def startHtmlOf : Except JsError TeamPages → String
  | .ok tp => tp.start.html
  | .error _ => ""

/-- Constant hash primitives: every code has the same derivations, a
legal instantiation for exercising noninterference. -/
def hashConst : HashPrims := ⟨fun _ => "MMMM", fun _ => "SSSS"⟩

/-! ### Supporting lemmas -/

theorem toList_mk (l : List Char) : (String.mk l).toList = l := rfl

theorem toList_append (a b : String) : (a ++ b).toList = a.toList ++ b.toList :=
  String.data_append a b

theorem isPrefixB_refl_append (n t : List Char) : isPrefixB n (n ++ t) = true := by
  induction n with
  | nil => rfl
  | cons c cs ih => simp [isPrefixB, ih]

theorem isInfixB_cons (n : List Char) (c : Char) (l : List Char)
    (h : isInfixB n l = true) : isInfixB n (c :: l) = true := by
  simp [isInfixB, h]

theorem isInfixB_append_left (pre n l : List Char)
    (h : isInfixB n l = true) : isInfixB n (pre ++ l) = true := by
  induction pre with
  | nil => simpa using h
  | cons c cs ih => exact isInfixB_cons _ _ _ ih

theorem isInfixB_self_append (n t : List Char) : isInfixB n (n ++ t) = true := by
  cases n with
  | nil => cases t <;> simp [isInfixB, isPrefixB]
  | cons c cs =>
    rw [List.cons_append]
    simp only [isInfixB, Bool.or_eq_true]
    exact Or.inl (by rw [← List.cons_append]; exact isPrefixB_refl_append _ _)

theorem containsStr_append_of_right (a b n : String) (h : containsStr b n = true) :
    containsStr (a ++ b) n = true := by
  unfold containsStr at *
  rw [toList_append]
  exact isInfixB_append_left _ _ _ h

theorem containsStr_self_append (n t : String) : containsStr (n ++ t) n = true := by
  unfold containsStr
  rw [toList_append]
  exact isInfixB_self_append _ _

theorem toUpper_of_isWhitespace (c : Char) (h : c.isWhitespace = true) :
    c.toUpper = c := by
  simp only [Char.isWhitespace, Bool.or_eq_true, decide_eq_true_eq] at h
  rcases h with ((h | h) | h) | h <;> subst h <;> decide

theorem jsTrim_eq_empty_iff (s : String) :
    jsTrim s = "" ↔ ∀ c ∈ s.toList, c.isWhitespace = true := by
  unfold jsTrim
  constructor
  · intro h c hc
    have hl : ((s.toList.dropWhile Char.isWhitespace).reverse.dropWhile
        Char.isWhitespace).reverse = ([] : List Char) := by
      have h2 := congrArg String.data h
      simpa using h2
    rw [List.reverse_eq_nil_iff, List.dropWhile_eq_nil_iff] at hl
    rw [← List.takeWhile_append_dropWhile Char.isWhitespace s.toList] at hc
    rcases List.mem_append.mp hc with h1 | h2
    · exact List.mem_takeWhile_imp h1
    · exact hl c (List.mem_reverse.mpr h2)
  · intro h
    have h1 : s.toList.dropWhile Char.isWhitespace = [] :=
      List.dropWhile_eq_nil_iff.mpr h
    rw [h1]
    rfl

theorem normalize_eq_empty_of_trim (s : String) (h : jsTrim s = "") :
    normalize s = "" := by
  unfold normalize
  rw [jsTrim_eq_empty_iff] at h ⊢
  intro c hc
  simp only [jsToUpper, toList_mk, List.mem_map] at hc
  rcases hc with ⟨a, ha, rfl⟩
  rw [toUpper_of_isWhitespace a (h a ha)]
  exact h a ha

/-! ### Claim C3: verification correctness -/

/-- C3: for a non-terminal step gating code `c` (whose normalised form
is non-empty, as holds for every code the loader can produce), a
submission is accepted exactly when its uppercased-and-trimmed form
equals that of `c`, assuming the SHA-256 primitive is collision-free on
the strings involved.  In particular any case/whitespace variant of `c`
is accepted and every other string is rejected. -/
theorem verification_correctness (H : HashPrims) (c s : String)
    (hinj : ∀ a b, H.sha256hex a = H.sha256hex b → a = b)
    (hc : normalize c ≠ "") :
    verifyAndRedirect H (sha256 H c) s =
      (if normalize s = normalize c then VerifyResult.accepted
       else VerifyResult.rejected) := by
  unfold verifyAndRedirect sha256
  by_cases hts : jsTrim s = ""
  · have hns : normalize s ≠ normalize c := by
      rw [normalize_eq_empty_of_trim s hts]
      exact fun he => hc he.symm
    rw [if_pos hts, if_neg hns]
  · rw [if_neg hts]
    by_cases he : normalize s = normalize c
    · rw [if_pos (by rw [he]), if_pos he]
    · rw [if_neg (fun hh => he (hinj _ _ hh)), if_neg he]

/-- C3 witness: the concrete scenario of the specification — a step
gated by `GNOME42` accepts `" gnome42 "` and rejects `"WRONG"`. -/
theorem verification_correctness_witness :
    verifyAndRedirect hashId (sha256 hashId "GNOME42") " gnome42 " =
      VerifyResult.accepted ∧
    verifyAndRedirect hashId (sha256 hashId "GNOME42") "WRONG" =
      VerifyResult.rejected :=
  ⟨(verification_correctness hashId "GNOME42" " gnome42 " (fun _ _ h => h)
      (by decide)).trans (by decide),
   (verification_correctness hashId "GNOME42" "WRONG" (fun _ _ h => h)
      (by decide)).trans (by decide)⟩

/-! ### Claim C9: monotonic collector progress -/

theorem updateTeamStatus_mono (ts : TeamStatus) (e : GameEvent) :
    ts.currentStep ≤ (updateTeamStatus ts e).currentStep := by
  rcases e with ⟨ty, st, tid, su⟩
  cases ty with
  | page_view =>
    simp only [updateTeamStatus]
    split_ifs with h
    · cases st with
      | none => simp
      | some v =>
        simp only [Option.getD_some] at h
        by_cases hv : v = 0
        · simp [hv]
        · simp only [hv, if_false]
          omega
    · exact le_refl _
  | code_attempt =>
    simp only [updateTeamStatus]
    cases su with
    | false => simp
    | true =>
      simp only [if_true]
      split_ifs with h
      · simp only
        omega
      · exact le_refl _
  | game_complete => simp [updateTeamStatus]
  | other => simp [updateTeamStatus]

theorem foldl_updateTeamStatus_mono (es : List GameEvent) :
    ∀ ts : TeamStatus, ts.currentStep ≤ (es.foldl updateTeamStatus ts).currentStep := by
  induction es with
  | nil => intro ts; simp
  | cons e rest ih =>
    intro ts
    calc ts.currentStep ≤ (updateTeamStatus ts e).currentStep :=
          updateTeamStatus_mono ts e
      _ ≤ _ := ih (updateTeamStatus ts e)

/-- C9: the collector's recorded step for a team never decreases: every
single update is monotone, a `page_view` or successful `code_attempt`
whose step number is lower than the stored one leaves the stored step
unchanged, and hence any sequence of notifications processed in any
arrival order only moves the step forward. -/
theorem monotonic_progress (ts : TeamStatus) (e : GameEvent) :
    ts.currentStep ≤ (updateTeamStatus ts e).currentStep ∧
    ((e.type = EventType.page_view ∨
      (e.type = EventType.code_attempt ∧ e.success = true)) →
      e.step.getD 0 < ts.currentStep →
      (updateTeamStatus ts e).currentStep = ts.currentStep) ∧
    ∀ es : List GameEvent,
      ts.currentStep ≤ (es.foldl updateTeamStatus ts).currentStep := by
  refine ⟨updateTeamStatus_mono ts e, ?_, fun es => foldl_updateTeamStatus_mono es ts⟩
  intro htype hlt
  rcases e with ⟨ty, st, tid, su⟩
  simp only at hlt
  rcases htype with h | ⟨h, hsu⟩
  · cases h
    simp only [updateTeamStatus]
    rw [if_neg (by omega)]
  · cases h
    cases hsu
    simp only [updateTeamStatus, if_true]
    rw [if_neg (by omega)]

/-- C9 witness: a stale `page_view` with step 2 arriving while the
stored step is 5 leaves the stored step at 5. -/
theorem monotonic_progress_witness :
    (updateTeamStatus ⟨5, none, false⟩
      ⟨EventType.page_view, some 2, some "t3", false⟩).currentStep = 5 :=
  (monotonic_progress ⟨5, none, false⟩
      ⟨EventType.page_view, some 2, some "t3", false⟩).2.1 (Or.inl rfl) (by decide)

/-! ### Claim C2: chain integrity -/

theorem emitHead_ok (H : HashPrims) (cfg : Config) (a b : String) (t cb i : Nat)
    (file : FileEntry) (rest : List FileEntry) (page : TaskPage)
    (h : emitHead H cfg a b t cb i file rest = .ok page) :
    page.filename = file.filename ∧ page.stepNumber = i + 1 ∧
    page.isFinal = rest.isEmpty ∧
    page.timeoutMinutes = jsOrNum file.task.timeout_minutes cfg.default_timeout_minutes := by
  cases rest with
  | nil =>
    unfold emitHead at h
    simp only [List.isEmpty_nil, if_true] at h
    injection h with h2
    subst h2
    exact ⟨rfl, rfl, rfl, rfl⟩
  | cons nf rest' =>
    unfold emitHead at h
    simp only [List.isEmpty_cons, Bool.false_eq_true, if_false] at h
    cases hcode : file.task.code with
    | none =>
      rw [hcode] at h
      simp at h
    | some c =>
      rw [hcode] at h
      injection h with h2
      subst h2
      exact ⟨rfl, rfl, rfl, rfl⟩

theorem emitHead_ok_next (H : HashPrims) (cfg : Config) (a b : String)
    (t cb i : Nat) (file nf : FileEntry) (rest' : List FileEntry)
    (page : TaskPage)
    (h : emitHead H cfg a b t cb i file (nf :: rest') = .ok page) :
    page.nextTaskFile = nf.filename ∧ page.isFinal = false ∧
    ∃ c, file.task.code = some c ∧ page.correctHash = sha256 H c := by
  unfold emitHead at h
  simp only [List.isEmpty_cons, Bool.false_eq_true, if_false] at h
  cases hcode : file.task.code with
  | none =>
    rw [hcode] at h
    simp at h
  | some c =>
    rw [hcode] at h
    injection h with h2
    subst h2
    exact ⟨rfl, rfl, c, rfl, rfl⟩

theorem emitPages_filenames (H : HashPrims) (cfg : Config) (a b : String)
    (t cb : Nat) :
    ∀ (fs : List FileEntry) (i : Nat) (ps : List TaskPage),
      emitPages H cfg a b t cb i fs = .ok ps →
      ps.map TaskPage.filename = fs.map FileEntry.filename := by
  intro fs
  induction fs with
  | nil =>
    intro i ps h
    simp only [emitPages] at h
    injection h with h2
    subst h2
    rfl
  | cons f rest ih =>
    intro i ps h
    simp only [emitPages] at h
    cases hh : emitHead H cfg a b t cb i f rest with
    | error e => rw [hh] at h; simp at h
    | ok page =>
      rw [hh] at h
      cases hr : emitPages H cfg a b t cb (i + 1) rest with
      | error e => rw [hr] at h; simp at h
      | ok pages =>
        rw [hr] at h
        injection h with h2
        subst h2
        simp only [List.map_cons]
        rw [(emitHead_ok H cfg a b t cb i f rest page hh).1, ih _ _ hr]

theorem emitPages_chain (H : HashPrims) (cfg : Config) (a b : String)
    (t cb : Nat) :
    ∀ (fs : List FileEntry) (i : Nat) (ps : List TaskPage),
      emitPages H cfg a b t cb i fs = .ok ps →
      ∀ (j : Nat) (pj pj1 : TaskPage), ps[j]? = some pj →
        ps[j + 1]? = some pj1 → pj.nextTaskFile = pj1.filename := by
  intro fs
  induction fs with
  | nil =>
    intro i ps h j pj pj1 hj hj1
    simp only [emitPages] at h
    injection h with h2
    subst h2
    simp at hj
  | cons f rest ih =>
    intro i ps h j pj pj1 hj hj1
    simp only [emitPages] at h
    cases hh : emitHead H cfg a b t cb i f rest with
    | error e => rw [hh] at h; simp at h
    | ok page =>
      rw [hh] at h
      cases hr : emitPages H cfg a b t cb (i + 1) rest with
      | error e => rw [hr] at h; simp at h
      | ok pages =>
        rw [hr] at h
        injection h with h2
        subst h2
        cases j with
        | zero =>
          simp only [List.getElem?_cons_zero, Option.some.injEq] at hj
          subst hj
          simp only [List.getElem?_cons_succ] at hj1
          cases rest with
          | nil =>
            simp only [emitPages] at hr
            injection hr with hr2
            subst hr2
            simp at hj1
          | cons nf rest' =>
            have hmap := emitPages_filenames H cfg a b t cb _ _ _ hr
            cases pages with
            | nil => simp at hmap
            | cons p0 ptl =>
              simp only [List.getElem?_cons_zero, Option.some.injEq] at hj1
              subst hj1
              simp only [List.map_cons, List.cons.injEq] at hmap
              rw [(emitHead_ok_next H cfg a b t cb i f nf rest' page hh).1]
              exact hmap.1.symm
        | succ j' =>
          simp only [List.getElem?_cons_succ] at hj hj1
          exact ih _ _ hr j' pj pj1 hj hj1

/-- C2: chain integrity — whenever a team's generation succeeds, every
task page's embedded `nextTaskFile` equals the filename of the next
emitted page (in particular the last non-terminal page links to the
terminal page's filename), the start page links to the first task
page's filename, and at least one task page exists. -/
theorem chain_integrity (H : HashPrims) (cfg : Config) (tasks : List Task)
    (team : Team) (cb : Nat) (tp : TeamPages)
    (h : genTeam H cfg tasks team cb = .ok tp) :
    (∀ (j : Nat) (pj pj1 : TaskPage), tp.taskPages[j]? = some pj →
      tp.taskPages[j + 1]? = some pj1 → pj.nextTaskFile = pj1.filename) ∧
    (∀ p0 : TaskPage, tp.taskPages[0]? = some p0 →
      tp.start.nextTaskFile = p0.filename) ∧
    tp.taskPages ≠ [] := by
  unfold genTeam at h
  cases hsc : team.startCode with
  | none => rw [hsc] at h; simp at h
  | some sc =>
    rw [hsc] at h
    dsimp only at h
    cases hbf : buildFiles H tasks team.sequence with
    | error e => rw [hbf] at h; simp at h
    | ok files =>
      rw [hbf] at h
      dsimp only at h
      cases files with
      | nil => simp at h
      | cons f0 ftl =>
        dsimp only at h
        cases hemit : emitPages H cfg team.id team.name team.sequence.length cb 0
            (f0 :: ftl) with
        | error e => rw [hemit] at h; simp at h
        | ok pages =>
          rw [hemit] at h
          dsimp only at h
          injection h with h2
          subst h2
          have hmap := emitPages_filenames H cfg team.id team.name
            team.sequence.length cb _ _ _ hemit
          refine ⟨fun j pj pj1 hj hj1 =>
              emitPages_chain H cfg team.id team.name team.sequence.length cb
                _ _ _ hemit j pj pj1 hj hj1, ?_, ?_⟩
          · intro p0 hp0
            cases pages with
            | nil => simp at hp0
            | cons q qs =>
              simp only [List.getElem?_cons_zero, Option.some.injEq] at hp0
              subst hp0
              simp only [List.map_cons, List.cons.injEq] at hmap
              exact hmap.1.symm
          · cases pages with
            | nil => simp at hmap
            | cons q qs => simp

/-- C2 witness: a concrete three-step team generates successfully and
satisfies all three chain-integrity conjuncts. -/
theorem chain_integrity_witness :
    ∃ tp, genTeam hashId configDefaults tasksA teamA 7 = .ok tp ∧
      ((∀ (j : Nat) (pj pj1 : TaskPage), tp.taskPages[j]? = some pj →
         tp.taskPages[j + 1]? = some pj1 → pj.nextTaskFile = pj1.filename) ∧
       (∀ p0 : TaskPage, tp.taskPages[0]? = some p0 →
         tp.start.nextTaskFile = p0.filename) ∧
       tp.taskPages ≠ []) :=
  ⟨_, rfl, chain_integrity hashId configDefaults tasksA teamA 7 _ rfl⟩

/-! ### Claim C4: determinism and cache-buster independence -/

theorem exceptMap_ok_eq {α β ε : Type} (f : α → β) (a : α) :
    (Except.ok a : Except ε α).map f = .ok (f a) := rfl

theorem exceptMap_error_eq {α β ε : Type} (f : α → β) (e : ε) :
    (Except.error e : Except ε α).map f = .error e := rfl

theorem emitHead_spec_cb (H : HashPrims) (cfg : Config) (a b : String)
    (t cb cb' i : Nat) (file : FileEntry) (rest : List FileEntry) :
    (emitHead H cfg a b t cb i file rest).map pageSpecOf =
      (emitHead H cfg a b t cb' i file rest).map pageSpecOf := by
  cases rest with
  | nil => simp [emitHead, Except.map, pageSpecOf]
  | cons nf rest' =>
    cases hcode : file.task.code with
    | none => simp [emitHead, hcode, Except.map]
    | some c => simp [emitHead, hcode, Except.map, pageSpecOf]

theorem emitPages_spec_cb (H : HashPrims) (cfg : Config) (a b : String)
    (t : Nat) :
    ∀ (fs : List FileEntry) (i cb cb' : Nat),
      (emitPages H cfg a b t cb i fs).map (List.map pageSpecOf) =
        (emitPages H cfg a b t cb' i fs).map (List.map pageSpecOf) := by
  intro fs
  induction fs with
  | nil => intro i cb cb'; rfl
  | cons f rest ih =>
    intro i cb cb'
    have hh := emitHead_spec_cb H cfg a b t cb cb' i f rest
    have hrec := ih (i + 1) cb cb'
    simp only [emitPages]
    cases h1 : emitHead H cfg a b t cb i f rest with
    | error e =>
      rw [h1, exceptMap_error_eq] at hh
      cases h2 : emitHead H cfg a b t cb' i f rest with
      | error e' => rw [h2, exceptMap_error_eq] at hh
      | ok p2 =>
        rw [h2, exceptMap_ok_eq] at hh
        exact Except.noConfusion hh
    | ok page =>
      rw [h1, exceptMap_ok_eq] at hh
      cases h2 : emitHead H cfg a b t cb' i f rest with
      | error e =>
        rw [h2, exceptMap_error_eq] at hh
        exact Except.noConfusion hh
      | ok page' =>
        rw [h2, exceptMap_ok_eq] at hh
        injection hh with hspec
        dsimp only
        cases hr1 : emitPages H cfg a b t cb (i + 1) rest with
        | error e =>
          rw [hr1, exceptMap_error_eq] at hrec
          cases hr2 : emitPages H cfg a b t cb' (i + 1) rest with
          | error e' => rw [hr2, exceptMap_error_eq] at hrec
          | ok ps =>
            rw [hr2, exceptMap_ok_eq] at hrec
            exact Except.noConfusion hrec
        | ok ps =>
          rw [hr1, exceptMap_ok_eq] at hrec
          cases hr2 : emitPages H cfg a b t cb' (i + 1) rest with
          | error e =>
            rw [hr2, exceptMap_error_eq] at hrec
            exact Except.noConfusion hrec
          | ok ps' =>
            rw [hr2, exceptMap_ok_eq] at hrec
            injection hrec with hps
            rw [exceptMap_ok_eq, exceptMap_ok_eq]
            simp only [List.map_cons]
            rw [hspec, hps]

theorem map_fst_of_spec (ps ps' : List TaskPage)
    (h : ps.map pageSpecOf = ps'.map pageSpecOf) :
    ps.map TaskPage.filename = ps'.map TaskPage.filename := by
  have h2 := congrArg (List.map (fun x : String × String × String × Nat × Bool × Option Int => x.1)) h
  simpa [List.map_map, Function.comp] using h2

theorem map_hash_of_spec (ps ps' : List TaskPage)
    (h : ps.map pageSpecOf = ps'.map pageSpecOf) :
    ps.map TaskPage.correctHash = ps'.map TaskPage.correctHash := by
  have h2 := congrArg (List.map (fun x : String × String × String × Nat × Bool × Option Int => x.2.1)) h
  simpa [List.map_map, Function.comp] using h2

/-- C4: the filename and secret derivations are invariant under the
case/whitespace normalisation — any variant with the same
uppercased-and-trimmed form derives the same filename and the same
secret — and, the generator being a pure function of its inputs, two
runs over identical content and configuration differing only in the
run-varying cache-busting token produce identical page filenames and
identical embedded secrets. -/
theorem determinism_and_normalization (H : HashPrims) (cfg : Config)
    (tasks : List Task) (team : Team) :
    (∀ c c', normalize c' = normalize c →
      md5 H c' = md5 H c ∧ sha256 H c' = sha256 H c) ∧
    (∀ cb cb' : Nat,
      runFilenames (genTeam H cfg tasks team cb) =
        runFilenames (genTeam H cfg tasks team cb') ∧
      runSecrets (genTeam H cfg tasks team cb) =
        runSecrets (genTeam H cfg tasks team cb')) := by
  constructor
  · intro c c' hcc
    unfold md5 sha256
    rw [hcc]
    exact ⟨rfl, rfl⟩
  · intro cb cb'
    unfold genTeam
    cases hsc : team.startCode with
    | none => exact ⟨rfl, rfl⟩
    | some sc =>
      dsimp only
      cases hbf : buildFiles H tasks team.sequence with
      | error e => exact ⟨rfl, rfl⟩
      | ok files =>
        dsimp only
        cases files with
        | nil => exact ⟨rfl, rfl⟩
        | cons f0 ftl =>
          dsimp only
          have hspec := emitPages_spec_cb H cfg team.id team.name
            team.sequence.length (f0 :: ftl) 0 cb cb'
          cases he1 : emitPages H cfg team.id team.name team.sequence.length cb 0
              (f0 :: ftl) with
          | error e =>
            rw [he1, exceptMap_error_eq] at hspec
            cases he2 : emitPages H cfg team.id team.name team.sequence.length cb' 0
                (f0 :: ftl) with
            | error e' => exact ⟨rfl, rfl⟩
            | ok ps =>
              rw [he2, exceptMap_ok_eq] at hspec
              exact Except.noConfusion hspec
          | ok ps =>
            rw [he1, exceptMap_ok_eq] at hspec
            cases he2 : emitPages H cfg team.id team.name team.sequence.length cb' 0
                (f0 :: ftl) with
            | error e =>
              rw [he2, exceptMap_error_eq] at hspec
              exact Except.noConfusion hspec
            | ok ps' =>
              rw [he2, exceptMap_ok_eq] at hspec
              injection hspec with hsp
              constructor
              · simp only [runFilenames, Option.some.injEq, Prod.mk.injEq, true_and]
                exact map_fst_of_spec ps ps' hsp
              · simp only [runSecrets, Option.some.injEq]
                exact map_hash_of_spec ps ps' hsp

/-- C4 witness: a whitespace/case variant derives the same filename
digest, and two concrete runs with different cache busters emit the
same filenames. -/
theorem determinism_witness :
    md5 hashId " gnome42" = md5 hashId "GNOME42" ∧
    runFilenames (genTeam hashId configDefaults tasksA teamA 1) =
      runFilenames (genTeam hashId configDefaults tasksA teamA 999) :=
  ⟨((determinism_and_normalization hashId configDefaults tasksA teamA).1
      " gnome42" "GNOME42" (by decide)).1,
   ((determinism_and_normalization hashId configDefaults tasksA teamA).2 1 999).1⟩

/-! ### Claim C1: which code derives each filename -/

theorem buildFilesGo_spec (H : HashPrims) (tasks : List Task) :
    ∀ (seq : List String) (i : Nat) (prev : Option String) (fs : List FileEntry),
      (∀ tid ∈ seq, (findTask tasks tid).isSome) →
      (∀ pid, prev = some pid → (findTask tasks pid).isSome) →
      (prev = none → i = 0) →
      buildFilesGo H tasks i prev seq = .ok fs →
      fs.length = seq.length ∧
      ∀ (j : Nat) (e : FileEntry), fs[j]? = some e →
        e.index = i + j ∧ e.taskId = seq.getD j "" ∧
        ∃ gt c, findTask tasks (gateId prev seq j) = some gt ∧
          gt.code = some c ∧
          e.filename = "s" ++ toString (i + j + 1) ++ "_" ++ md5 H c ++ ".html" := by
  intro seq
  induction seq with
  | nil =>
    intro i prev fs hres hprev hpi h
    simp only [buildFilesGo] at h
    injection h with h2
    subst h2
    exact ⟨rfl, by intro j e hj; simp at hj⟩
  | cons tid rest ih =>
    intro i prev fs hres hprev hpi h
    have htid : (findTask tasks tid).isSome = true :=
      hres tid (List.mem_cons_self tid rest)
    cases htask0 : findTask tasks tid with
    | none => rw [htask0] at htid; simp at htid
    | some task =>
      simp only [buildFilesGo] at h
      rw [htask0] at h
      dsimp only at h
      cases prev with
      | none =>
        have hi0 : i = 0 := hpi rfl
        subst hi0
        cases hcode : task.code with
        | none =>
          rw [hcode] at h
          dsimp only at h
          exact Except.noConfusion h
        | some c =>
          rw [hcode] at h
          dsimp only at h
          cases hrec : buildFilesGo H tasks (0 + 1) (some tid) rest with
          | error e =>
            rw [hrec] at h
            dsimp only at h
            exact Except.noConfusion h
          | ok entries =>
            rw [hrec] at h
            dsimp only at h
            injection h with h2
            subst h2
            obtain ⟨hlen, hspec⟩ := ih (0 + 1) (some tid) entries
              (fun u hu => hres u (List.mem_cons_of_mem tid hu))
              (fun pid' hp => by injection hp with hp2; subst hp2; rw [htask0]; rfl)
              (fun hcontra => Option.noConfusion hcontra)
              hrec
            refine ⟨by simp [hlen], ?_⟩
            intro j e hj
            cases j with
            | zero =>
              simp only [List.getElem?_cons_zero, Option.some.injEq] at hj
              subst hj
              refine ⟨rfl, rfl, task, c, ?_, hcode, ?_⟩
              · simpa [gateId] using htask0
              · rw [(by decide : ("s" : String) ++ toString (0 + 0 + 1 : Nat) ++ "_" = "s1_")]
            | succ j' =>
              simp only [List.getElem?_cons_succ] at hj
              obtain ⟨hidx, htid', gt, c', hgt, hgtc, hfile⟩ := hspec j' e hj
              refine ⟨by omega, ?_, gt, c', ?_, hgtc, ?_⟩
              · rw [List.getD_cons_succ]
                exact htid'
              · cases j' with
                | zero => simpa [gateId] using hgt
                | succ k => simpa [gateId, List.getD_cons_succ] using hgt
              · rw [(by omega : 0 + (j' + 1) + 1 = 0 + 1 + j' + 1)]
                exact hfile
      | some pid =>
        have hpid : (findTask tasks pid).isSome = true := hprev pid rfl
        dsimp only at h
        cases hpt : findTask tasks pid with
        | none => rw [hpt] at hpid; simp at hpid
        | some pt =>
          rw [hpt] at h
          dsimp only at h
          cases hptc : pt.code with
          | none =>
            rw [hptc] at h
            dsimp only at h
            exact Except.noConfusion h
          | some c =>
            rw [hptc] at h
            dsimp only at h
            cases hrec : buildFilesGo H tasks (i + 1) (some tid) rest with
            | error e =>
              rw [hrec] at h
              dsimp only at h
              exact Except.noConfusion h
            | ok entries =>
              rw [hrec] at h
              dsimp only at h
              injection h with h2
              subst h2
              obtain ⟨hlen, hspec⟩ := ih (i + 1) (some tid) entries
                (fun u hu => hres u (List.mem_cons_of_mem tid hu))
                (fun pid' hp => by injection hp with hp2; subst hp2; rw [htask0]; rfl)
                (fun hcontra => Option.noConfusion hcontra)
                hrec
              refine ⟨by simp [hlen], ?_⟩
              intro j e hj
              cases j with
              | zero =>
                simp only [List.getElem?_cons_zero, Option.some.injEq] at hj
                subst hj
                exact ⟨rfl, rfl, pt, c, by simpa [gateId] using hpt, hptc, rfl⟩
              | succ j' =>
                simp only [List.getElem?_cons_succ] at hj
                obtain ⟨hidx, htid', gt, c', hgt, hgtc, hfile⟩ := hspec j' e hj
                refine ⟨by omega, ?_, gt, c', ?_, hgtc, ?_⟩
                · rw [List.getD_cons_succ]
                  exact htid'
                · cases j' with
                  | zero => simpa [gateId] using hgt
                  | succ k => simpa [gateId, List.getD_cons_succ] using hgt
                · rw [(by omega : i + (j' + 1) + 1 = i + 1 + j' + 1)]
                  exact hfile

theorem getElem?_filename_of_map (ps : List TaskPage) (fs : List FileEntry)
    (h : ps.map TaskPage.filename = fs.map FileEntry.filename) (j : Nat) :
    (ps[j]?).map TaskPage.filename = (fs[j]?).map FileEntry.filename := by
  have h2 := congrArg (fun l => l[j]?) h
  simpa [List.getElem?_map] using h2

/-- C1 amended: the start page's filename is derived from the team's
`startCode`, but a task page's filename at chain position `j` is
derived from the task *at position 0 itself* when `j = 0` — not from
the `startCode` — and from the task at position `j - 1` when `j > 0`;
identical codes (up to normalisation) still derive identical
filenames everywhere. -/
theorem filename_derivation (H : HashPrims) (cfg : Config) (tasks : List Task)
    (team : Team) (cb : Nat) (tp : TeamPages) (sc : String)
    (hsc : team.startCode = some sc)
    (hres : ∀ tid ∈ team.sequence, (findTask tasks tid).isSome)
    (h : genTeam H cfg tasks team cb = .ok tp) :
    tp.start.filename = "start_" ++ md5 H sc ++ ".html" ∧
    (∀ (j : Nat) (pj : TaskPage), tp.taskPages[j]? = some pj →
      ∃ gt c,
        findTask tasks (team.sequence.getD (if j = 0 then 0 else j - 1) "") = some gt ∧
        gt.code = some c ∧
        pj.filename = "s" ++ toString (j + 1) ++ "_" ++ md5 H c ++ ".html") ∧
    (∀ c c', normalize c = normalize c' → md5 H c = md5 H c') := by
  unfold genTeam at h
  rw [hsc] at h
  dsimp only at h
  cases hbf : buildFiles H tasks team.sequence with
  | error e => rw [hbf] at h; simp at h
  | ok files =>
    rw [hbf] at h
    dsimp only at h
    cases files with
    | nil => simp at h
    | cons f0 ftl =>
      dsimp only at h
      cases hemit : emitPages H cfg team.id team.name team.sequence.length cb 0
          (f0 :: ftl) with
      | error e => rw [hemit] at h; simp at h
      | ok pages =>
        rw [hemit] at h
        dsimp only at h
        injection h with h2
        subst h2
        obtain ⟨hlen, hspec⟩ := buildFilesGo_spec H tasks team.sequence 0 none
          (f0 :: ftl) hres (fun pid hp => Option.noConfusion hp) (fun _ => rfl) hbf
        have hmap := emitPages_filenames H cfg team.id team.name
          team.sequence.length cb _ _ _ hemit
        refine ⟨rfl, ?_, ?_⟩
        · intro j pj hj
          have hget := getElem?_filename_of_map pages (f0 :: ftl) hmap j
          rw [hj] at hget
          cases hfj : (f0 :: ftl)[j]? with
          | none => rw [hfj] at hget; simp at hget
          | some e =>
            rw [hfj] at hget
            have hfn : pj.filename = e.filename := by simpa using hget
            obtain ⟨hidx, htid', gt, c, hgt, hgtc, hfile⟩ := hspec j e hfj
            refine ⟨gt, c, ?_, hgtc, ?_⟩
            · cases j with
              | zero => simpa [gateId] using hgt
              | succ j' => simpa [gateId] using hgt
            · rw [hfn, hfile, (by omega : 0 + j + 1 = j + 1)]
        · intro c c' hcc
          unfold md5
          rw [hcc]

/-- C1 counterexample: with identity primitives, a team whose
`startCode` is `SSS` and whose first task carries code `AAA` gets a
step-1 page named `s1_AAA.html` — derived from the first task's own
code — which differs from the filename the claim derives from the
team's `startCode`. -/
theorem filename_derivation_counterexample :
    ∃ tp, genTeam hashId configDefaults tasksA teamA 0 = .ok tp ∧
      teamA.startCode = some "SSS" ∧
      (tp.taskPages.map TaskPage.filename)[0]? = some "s1_AAA.html" ∧
      ("s1_AAA.html" : String) ≠ "s1_" ++ md5 hashId "SSS" ++ ".html" :=
  ⟨_, rfl, rfl, rfl, by decide⟩

/-- C1 witness: the amended statement holds on the concrete fixture. -/
theorem filename_derivation_witness :
    ∃ tp, genTeam hashId configDefaults tasksA teamA 0 = .ok tp ∧
      (tp.start.filename = "start_" ++ md5 hashId "SSS" ++ ".html" ∧
       (∀ (j : Nat) (pj : TaskPage), tp.taskPages[j]? = some pj →
         ∃ gt c,
           findTask tasksA (teamA.sequence.getD (if j = 0 then 0 else j - 1) "") = some gt ∧
           gt.code = some c ∧
           pj.filename = "s" ++ toString (j + 1) ++ "_" ++ md5 hashId c ++ ".html") ∧
       (∀ c c', normalize c = normalize c' → md5 hashId c = md5 hashId c')) :=
  ⟨_, rfl, filename_derivation hashId configDefaults tasksA teamA 0 _ "SSS" rfl
    (by decide) rfl⟩

/-! ### Claim C5: unresolved task references -/

/-- C5 counterexample: a sequence referencing the non-existent task
`t2` in final position does not abort generation — the run finishes
with no error and publishes a two-page output tree for the team
(`console.error` + `continue` in the chain loop). -/
theorem unresolved_not_fatal_counterexample :
    teamC5.sequence = ["t1", "t2"] ∧
    findTask tasksC5 "t2" = none ∧
    (generateTeamsPages hashId configDefaults tasksC5 [teamC5] 0).2 = none ∧
    (generateTeamsPages hashId configDefaults tasksC5 [teamC5] 0).1.map Prod.fst =
      ["team1/start_S.html", "team1/s1_A.html"] := by
  refine ⟨rfl, rfl, ?_, ?_⟩ <;> rfl

/-- C5 amended: an unresolved Task-id is logged and skipped rather than
aborting: the chain loop simply continues past it, so when every later
position still succeeds (e.g. the dangling reference is last)
generation completes and publishes the team's pages; only when the
position after the dangling reference resolves does the loop crash with
an uncaught `TypeError` (reading `.code` of `undefined`), aborting
mid-run with previously written files left in place. -/
theorem unresolved_reference_behavior :
    (∀ (H : HashPrims) (tasks : List Task) (i : Nat) (prev : Option String)
       (seq : List String) (tid : String),
       findTask tasks tid = none →
       buildFilesGo H tasks i prev (tid :: seq) =
         buildFilesGo H tasks (i + 1) (some tid) seq) ∧
    (∀ (H : HashPrims) (tasks : List Task) (i : Nat) (prev : Option String)
       (seq : List String) (tid tid' : String) (t' : Task),
       findTask tasks tid = none → findTask tasks tid' = some t' →
       buildFilesGo H tasks i prev (tid :: tid' :: seq) =
         .error JsError.typeError) ∧
    (∀ (H : HashPrims) (cfg : Config) (tasks : List Task) (team : Team)
       (cb : Nat) (tp : TeamPages),
       genTeam H cfg tasks team cb = .ok tp →
       generateTeamsPages H cfg tasks [team] cb =
         ((team.id ++ "/" ++ tp.start.filename, tp.start.html) ::
           tp.taskPages.map (fun p => (team.id ++ "/" ++ p.filename, p.html)),
          none)) := by
  refine ⟨?_, ?_, ?_⟩
  · intro H tasks i prev seq tid hmiss
    simp only [buildFilesGo]
    rw [hmiss]
  · intro H tasks i prev seq tid tid' t' hmiss hres
    simp only [buildFilesGo]
    rw [hmiss, hres]
  · intro H cfg tasks team cb tp h
    simp [generateTeamsPages, h]

/-- C5 witness: the three amended behaviors at concrete inputs — the
skip, the crash one position later, and the publication of a
successfully generated team. -/
theorem unresolved_reference_behavior_witness :
    buildFilesGo hashId tasksC5 0 none ["t2"] =
      buildFilesGo hashId tasksC5 1 (some "t2") [] ∧
    buildFilesGo hashId tasksC5 0 none ["t2", "t1"] =
      .error JsError.typeError ∧
    ∃ tp, genTeam hashId configDefaults tasksA teamA 0 = .ok tp ∧
      generateTeamsPages hashId configDefaults tasksA [teamA] 0 =
        ((teamA.id ++ "/" ++ tp.start.filename, tp.start.html) ::
          tp.taskPages.map (fun p => (teamA.id ++ "/" ++ p.filename, p.html)),
         none) :=
  ⟨unresolved_reference_behavior.1 hashId tasksC5 0 none [] "t2" rfl,
   unresolved_reference_behavior.2.1 hashId tasksC5 0 none [] "t2" "t1" _ rfl rfl,
   _, rfl,
   unresolved_reference_behavior.2.2 hashId configDefaults tasksA teamA 0 _ rfl⟩

/-! ### Claim C7: single-task sequences -/

/-- C7 counterexample: a length-1 sequence whose single task is
terminal (`code = null`) does not produce two pages — generation
crashes with a `TypeError` (the filename derivation `md5` is applied to
the task's own `null` code even at position 0), so no page at all is
emitted for the team. -/
theorem single_terminal_task_counterexample :
    teamSolo.sequence = ["t1"] ∧ taskNullCode.code = none ∧
    genTeam hashId configDefaults [taskNullCode] teamSolo 0 =
      Except.error JsError.typeError :=
  ⟨rfl, rfl, rfl⟩

/-- C7 amended: for a length-1 sequence, when the single task's code is
`null` generation crashes with a `TypeError`; when it carries a code
`c`, exactly two pages are emitted — a start page named from the
`startCode` whose next link is `s1_` followed by the 16-character
derivation of `c` (the task's *own* code, not the `startCode`) and
`.html`, plus one terminal task page with empty secret and next link
and no unlock form (the form fragment of a final page is empty). -/
theorem single_task_chain (H : HashPrims) (cfg : Config) (tasks : List Task)
    (team : Team) (cb : Nat) (tid : String) (t : Task) (sc : String)
    (hseq : team.sequence = [tid])
    (ht : findTask tasks tid = some t)
    (hsc : team.startCode = some sc) :
    (t.code = none → genTeam H cfg tasks team cb = .error JsError.typeError) ∧
    (∀ c, t.code = some c →
      runFilenames (genTeam H cfg tasks team cb) =
        some ("start_" ++ md5 H sc ++ ".html", ["s1_" ++ md5 H c ++ ".html"]) ∧
      startNextOf (genTeam H cfg tasks team cb) =
        some ("s1_" ++ md5 H c ++ ".html") ∧
      finalFlagsOf (genTeam H cfg tasks team cb) = [(true, "", "")] ∧
      ((∀ x, (H.md5hex x).length = 32) → (md5 H c).length = 16)) ∧
    (∀ o : TaskPageOptions, o.isFinalPage = true → taskFormHtml o = "") := by
  refine ⟨?_, ?_, ?_⟩
  · intro hcode
    simp [genTeam, hsc, hseq, buildFiles, buildFilesGo, ht, hcode]
  · intro c hcode
    refine ⟨?_, ?_, ?_, ?_⟩
    · simp [genTeam, hsc, hseq, buildFiles, buildFilesGo, ht, hcode, emitPages,
        emitHead, runFilenames]
    · simp [genTeam, hsc, hseq, buildFiles, buildFilesGo, ht, hcode, emitPages,
        emitHead, startNextOf]
    · simp [genTeam, hsc, hseq, buildFiles, buildFilesGo, ht, hcode, emitPages,
        emitHead, finalFlagsOf]
    · intro h32
      unfold md5
      rw [String.take_eq]
      have hlen2 : (H.md5hex (normalize c)).data.length = 32 := h32 (normalize c)
      show ((H.md5hex (normalize c)).data.take 16).length = 16
      rw [List.length_take, hlen2]
      decide
  · intro o ho
    simp [taskFormHtml, ho]

/-- C7 witness: both amended branches at concrete inputs — the
`code: null` crash and the two-page run for a coded single task. -/
theorem single_task_chain_witness :
    genTeam hashId configDefaults [taskNullCode] teamSolo 3 =
      .error JsError.typeError ∧
    runFilenames (genTeam hashId configDefaults [taskSoloCode] teamSolo 3) =
      some ("start_" ++ md5 hashId "START1" ++ ".html",
            ["s1_" ++ md5 hashId "gnome42" ++ ".html"]) ∧
    finalFlagsOf (genTeam hashId configDefaults [taskSoloCode] teamSolo 3) =
      [(true, "", "")] :=
  ⟨(single_task_chain hashId configDefaults [taskNullCode] teamSolo 3 "t1"
      taskNullCode "START1" rfl rfl rfl).1 rfl,
   ((single_task_chain hashId configDefaults [taskSoloCode] teamSolo 3 "t1"
      taskSoloCode "START1" rfl rfl rfl).2.1 "gnome42" rfl).1,
   ((single_task_chain hashId configDefaults [taskSoloCode] teamSolo 3 "t1"
      taskSoloCode "START1" rfl rfl rfl).2.1 "gnome42" rfl).2.2.1⟩

/-! ### Claim C8: secret non-exposure -/

theorem findTask_match (H : HashPrims) {T T' : List Task}
    (hf : List.Forall₂ (TaskMatch H) T T') (tid : String) :
    (findTask T tid = none ∧ findTask T' tid = none) ∨
    (∃ t t', findTask T tid = some t ∧ findTask T' tid = some t' ∧
      TaskMatch H t t') := by
  induction hf with
  | nil => exact Or.inl ⟨rfl, rfl⟩
  | cons hR hRs ih =>
    rename_i a b as bs
    by_cases hid : a.id = tid
    · refine Or.inr ⟨a, b, ?_, ?_, hR⟩
      · simp only [findTask]
        rw [List.find?_cons_of_pos _ (by simpa using hid)]
      · simp only [findTask]
        rw [List.find?_cons_of_pos _ (by simp [← hR.1, hid])]
    · have hid' : ¬b.id = tid := by rw [← hR.1]; exact hid
      have h1 : findTask (a :: as) tid = findTask as tid := by
        simp only [findTask]
        rw [List.find?_cons_of_neg _ (by simpa using hid)]
      have h2 : findTask (b :: bs) tid = findTask bs tid := by
        simp only [findTask]
        rw [List.find?_cons_of_neg _ (by simpa using hid')]
      rw [h1, h2]
      exact ih

theorem buildFilesGo_match (H : HashPrims) {T T' : List Task}
    (hf : List.Forall₂ (TaskMatch H) T T') :
    ∀ (seq : List String) (i : Nat) (prev : Option String),
      (buildFilesGo H T i prev seq = .error JsError.typeError ∧
       buildFilesGo H T' i prev seq = .error JsError.typeError) ∨
      (∃ fs fs', buildFilesGo H T i prev seq = .ok fs ∧
        buildFilesGo H T' i prev seq = .ok fs' ∧
        List.Forall₂ (EntryMatch H) fs fs') := by
  intro seq
  induction seq with
  | nil => intro i prev; exact Or.inr ⟨[], [], rfl, rfl, List.Forall₂.nil⟩
  | cons tid rest ih =>
    intro i prev
    rcases findTask_match H hf tid with ⟨hn, hn'⟩ | ⟨t, t', hs, hs', hm⟩
    · simp only [buildFilesGo]
      rw [hn, hn']
      exact ih (i + 1) (some tid)
    · simp only [buildFilesGo]
      rw [hs, hs']
      dsimp only
      cases prev with
      | none =>
        cases hc : t.code with
        | none =>
          have hc' : t'.code = none := (hm.2.2.2.1).mp hc
          rw [hc']
          exact Or.inl ⟨rfl, rfl⟩
        | some c =>
          cases hc' : t'.code with
          | none =>
            have := (hm.2.2.2.1).mpr hc'
            rw [hc] at this
            exact Option.noConfusion this
          | some c' =>
            have hhash := (hm.2.2.2.2 c c' hc hc').1
            dsimp only
            rcases ih (i + 1) (some tid) with ⟨h1, h2⟩ | ⟨fs, fs', h1, h2, hfs⟩
            · rw [h1, h2]
              exact Or.inl ⟨rfl, rfl⟩
            · rw [h1, h2]
              dsimp only
              exact Or.inr ⟨_, _, rfl, rfl,
                List.Forall₂.cons ⟨rfl, rfl, by rw [hhash], hm⟩ hfs⟩
      | some pid =>
        dsimp only
        rcases findTask_match H hf pid with ⟨hn, hn'⟩ | ⟨p, p', hps, hps', hpm⟩
        · rw [hn, hn']
          exact Or.inl ⟨rfl, rfl⟩
        · rw [hps, hps']
          dsimp only
          cases hpc : p.code with
          | none =>
            have hpc' : p'.code = none := (hpm.2.2.2.1).mp hpc
            rw [hpc']
            exact Or.inl ⟨rfl, rfl⟩
          | some c =>
            cases hpc' : p'.code with
            | none =>
              have := (hpm.2.2.2.1).mpr hpc'
              rw [hpc] at this
              exact Option.noConfusion this
            | some c' =>
              have hhash := (hpm.2.2.2.2 c c' hpc hpc').1
              dsimp only
              rcases ih (i + 1) (some tid) with ⟨h1, h2⟩ | ⟨fs, fs', h1, h2, hfs⟩
              · rw [h1, h2]
                exact Or.inl ⟨rfl, rfl⟩
              · rw [h1, h2]
                dsimp only
                exact Or.inr ⟨_, _, rfl, rfl,
                  List.Forall₂.cons ⟨rfl, rfl, by rw [hhash], hm⟩ hfs⟩

theorem emitHead_match (H : HashPrims) (cfg : Config) (a b : String)
    (t cb i : Nat) (e e' : FileEntry) (es es' : List FileEntry)
    (hR : EntryMatch H e e') (hT : List.Forall₂ (EntryMatch H) es es') :
    emitHead H cfg a b t cb i e es = emitHead H cfg a b t cb i e' es' := by
  obtain ⟨hidx, htid, hfn, hm⟩ := hR
  cases hT with
  | nil =>
    unfold emitHead
    rw [hfn, htid, hm.2.1, hm.2.2.1]
    simp
  | cons hR2 hT2 =>
    rename_i nf nf' ns ns'
    unfold emitHead
    simp only [List.isEmpty_cons, Bool.false_eq_true, if_false]
    cases hc : e.task.code with
    | none =>
      have hc' : e'.task.code = none := (hm.2.2.2.1).mp hc
      rw [hc']
    | some c =>
      cases hc' : e'.task.code with
      | none =>
        have := (hm.2.2.2.1).mpr hc'
        rw [hc] at this
        exact Option.noConfusion this
      | some c' =>
        have hsha := (hm.2.2.2.2 c c' hc hc').2
        dsimp only
        rw [hfn, htid, hm.2.1, hm.2.2.1, hsha, hR2.2.2.1]

theorem emitPages_match (H : HashPrims) (cfg : Config) (a b : String)
    (t cb : Nat) :
    ∀ {fs fs' : List FileEntry}, List.Forall₂ (EntryMatch H) fs fs' →
      ∀ i, emitPages H cfg a b t cb i fs = emitPages H cfg a b t cb i fs' := by
  intro fs fs' hf
  induction hf with
  | nil => intro i; rfl
  | cons hR hRs ih =>
    rename_i e e' es es'
    intro i
    simp only [emitPages]
    rw [emitHead_match H cfg a b t cb i e e' es es' hR hRs, ih (i + 1)]

/-- C8 amended: player-facing pages embed a code only through its
derivations.  Replacing the task table by one that agrees on ids,
rendered bodies and timeouts, and whose codes (present at the same
places) have identical filename- and secret-derivations, leaves every
generated page — HTML included — byte-identical.  The literal
claim fails only because a code may coincide with fixed template text,
as the counterexample's `div` code shows. -/
theorem code_noninterference (H : HashPrims) (cfg : Config) (team : Team)
    (cb : Nat) (tasks tasks' : List Task)
    (hf : List.Forall₂ (TaskMatch H) tasks tasks') :
    genTeam H cfg tasks team cb = genTeam H cfg tasks' team cb := by
  unfold genTeam
  cases team.startCode with
  | none => rfl
  | some sc =>
    dsimp only
    rcases buildFilesGo_match H hf team.sequence 0 none with ⟨h1, h2⟩ | ⟨fs, fs', h1, h2, hfs⟩
    · unfold buildFiles
      rw [h1, h2]
    · unfold buildFiles
      rw [h1, h2]
      dsimp only
      cases hfs with
      | nil => rfl
      | cons hR hT =>
        rename_i f0 f0' ftl ftl'
        dsimp only
        rw [hR.2.2.1,
          emitPages_match H cfg team.id team.name team.sequence.length cb
            (List.Forall₂.cons hR hT) 0]

/-- C8 counterexample: with the task code `div` — which occurs in none
of the supplied content fields, so the claim's precondition holds — the
rendered player-facing start page still contains that code as a
substring, because it coincides with the page's fixed markup
(`<div class="container">`). -/
theorem secret_exposure_counterexample :
    (findTask tasksDiv "t1").map Task.code = some (some "div") ∧
    containsStr (startHtmlOf (genTeam hashId configDefaults tasksDiv teamDiv 0))
      "div" = true ∧
    containsStr "<p>under the bench</p>" "div" = false ∧
    containsStr "<p>x</p>" "div" = false ∧
    containsStr "Welcome!" "div" = false ∧
    containsStr "Reds" "div" = false ∧
    containsStr "team1" "div" = false ∧
    containsStr "t1" "div" = false ∧
    containsStr "t2" "div" = false := by
  refine ⟨rfl, ?_, ?_, ?_, ?_, ?_, ?_, ?_, ?_⟩ <;> decide

/-- C8 witness: two single-task tables differing only in the code
(`A` vs `B`) generate byte-identical pages under primitives for which
the two codes have equal derivations. -/
theorem code_noninterference_witness :
    genTeam hashConst configDefaults [⟨"t1", some "A", none, "<p>x</p>"⟩]
      ⟨"tm", "T", some "S", ["t1"], "w"⟩ 0 =
    genTeam hashConst configDefaults [⟨"t1", some "B", none, "<p>x</p>"⟩]
      ⟨"tm", "T", some "S", ["t1"], "w"⟩ 0 :=
  code_noninterference hashConst configDefaults ⟨"tm", "T", some "S", ["t1"], "w"⟩ 0
    [⟨"t1", some "A", none, "<p>x</p>"⟩] [⟨"t1", some "B", none, "<p>x</p>"⟩]
    (List.Forall₂.cons
      ⟨rfl, rfl, rfl, by simp, fun c c' hc hc' => by
        cases hc; cases hc'; exact ⟨rfl, rfl⟩⟩
      List.Forall₂.nil)

/-! ### Claim C10: configuration defaults -/

theorem buildFilesGo_tasks (H : HashPrims) (tasks : List Task) :
    ∀ (seq : List String) (i : Nat) (prev : Option String) (fs : List FileEntry),
      buildFilesGo H tasks i prev seq = .ok fs →
      ∀ e ∈ fs, e.task ∈ tasks := by
  intro seq
  induction seq with
  | nil =>
    intro i prev fs h e he
    simp only [buildFilesGo] at h
    injection h with h2
    subst h2
    simp at he
  | cons tid rest ih =>
    intro i prev fs h e he
    simp only [buildFilesGo] at h
    cases htask : findTask tasks tid with
    | none =>
      rw [htask] at h
      dsimp only at h
      exact ih _ _ _ h e he
    | some task =>
      rw [htask] at h
      dsimp only at h
      split at h
      · exact Except.noConfusion h
      · split at h
        · exact Except.noConfusion h
        · rename_i entries heq
          injection h with h2
          subst h2
          rcases List.mem_cons.mp he with rfl | hmem
          · exact List.mem_of_find?_eq_some htask
          · exact ih _ _ _ heq e hmem

theorem emitPages_timeout (H : HashPrims) (cfg : Config) (a b : String)
    (t cb : Nat) :
    ∀ (fs : List FileEntry) (i : Nat) (ps : List TaskPage),
      emitPages H cfg a b t cb i fs = .ok ps →
      ∀ p ∈ ps, ∃ e ∈ fs,
        p.timeoutMinutes = jsOrNum e.task.timeout_minutes cfg.default_timeout_minutes := by
  intro fs
  induction fs with
  | nil =>
    intro i ps h p hp
    simp only [emitPages] at h
    injection h with h2
    subst h2
    simp at hp
  | cons f rest ih =>
    intro i ps h p hp
    simp only [emitPages] at h
    cases hh : emitHead H cfg a b t cb i f rest with
    | error e => rw [hh] at h; exact Except.noConfusion h
    | ok page =>
      rw [hh] at h
      cases hr : emitPages H cfg a b t cb (i + 1) rest with
      | error e => rw [hr] at h; exact Except.noConfusion h
      | ok pages =>
        rw [hr] at h
        injection h with h2
        subst h2
        rcases List.mem_cons.mp hp with rfl | hmem
        · exact ⟨f, List.mem_cons_self f rest,
            (emitHead_ok H cfg a b t cb i f rest p hh).2.2.2⟩
        · obtain ⟨e, hef, hto⟩ := ih _ _ hr p hmem
          exact ⟨e, List.mem_cons_of_mem f hef, hto⟩

/-- C10: with no `CONFIG.md` (or with any recognised field absent from
its header) `loadConfig` falls back to the built-in defaults —
`admin_password` `treasure2024`, `default_timeout_minutes` 15,
`hint_penalty_minutes` 5, `organizers` `[]` — so the operator and
testing pages embed the SHA-256 of the literal `treasure2024` as their
gate, and every task page of a task without its own `timeout_minutes`
is emitted with the 15-minute default. -/
theorem config_defaults :
    loadConfig none = (⟨"treasure2024", some 15, some 5, []⟩ : Config) ∧
    (∀ content : String,
      ((parseMarkdownWithFrontmatter content).1.lookup "admin_password" = none →
        (loadConfig (some content)).admin_password = "treasure2024") ∧
      ((parseMarkdownWithFrontmatter content).1.lookup "default_timeout_minutes" = none →
        (loadConfig (some content)).default_timeout_minutes = some 15) ∧
      ((parseMarkdownWithFrontmatter content).1.lookup "hint_penalty_minutes" = none →
        (loadConfig (some content)).hint_penalty_minutes = some 5) ∧
      ((parseMarkdownWithFrontmatter content).1.lookup "organizers" = none →
        (loadConfig (some content)).organizers = [])) ∧
    (∀ (H : HashPrims) (urls : List TeamStartUrl),
      containsStr (generateAdminHtml H urls (loadConfig none).admin_password)
        (sha256 H "treasure2024") = true) ∧
    (∀ (H : HashPrims) (teams : List Team) (tasks : List Task)
       (urls : List TeamStartUrl) (turls : List (String × List String)),
      containsStr
        (generateTestingHtml H teams tasks urls turls (loadConfig none).admin_password)
        (sha256 H "treasure2024") = true) ∧
    (∀ (H : HashPrims) (tasks : List Task) (team : Team) (cb : Nat)
       (tp : TeamPages),
      (∀ t ∈ tasks, t.timeout_minutes = none) →
      genTeam H (loadConfig none) tasks team cb = .ok tp →
      ∀ p ∈ tp.taskPages, p.timeoutMinutes = some 15) := by
  refine ⟨rfl, ?_, ?_, ?_, ?_⟩
  · intro content
    refine ⟨?_, ?_, ?_, ?_⟩ <;> intro h <;>
      simp [loadConfig, fmStrField, jsOrStr, configDefaults, h]
  · intro H urls
    show containsStr (generateAdminHtml H urls "treasure2024")
      (sha256 H "treasure2024") = true
    unfold generateAdminHtml
    dsimp only
    simp only [String.append_assoc]
    apply containsStr_append_of_right
    apply containsStr_append_of_right
    apply containsStr_append_of_right
    exact containsStr_self_append _ _
  · intro H teams tasks urls turls
    show containsStr (generateTestingHtml H teams tasks urls turls "treasure2024")
      (sha256 H "treasure2024") = true
    unfold generateTestingHtml
    dsimp only
    simp only [String.append_assoc]
    apply containsStr_append_of_right
    apply containsStr_append_of_right
    apply containsStr_append_of_right
    apply containsStr_append_of_right
    apply containsStr_append_of_right
    exact containsStr_self_append _ _
  · intro H tasks team cb tp hnone h p hp
    unfold genTeam at h
    cases hsc : team.startCode with
    | none => rw [hsc] at h; exact Except.noConfusion h
    | some sc =>
      rw [hsc] at h
      dsimp only at h
      cases hbf : buildFiles H tasks team.sequence with
      | error e => rw [hbf] at h; exact Except.noConfusion h
      | ok files =>
        rw [hbf] at h
        dsimp only at h
        cases files with
        | nil => exact Except.noConfusion h
        | cons f0 ftl =>
          dsimp only at h
          cases hemit : emitPages H (loadConfig none) team.id team.name
              team.sequence.length cb 0 (f0 :: ftl) with
          | error e => rw [hemit] at h; exact Except.noConfusion h
          | ok pages =>
            rw [hemit] at h
            dsimp only at h
            injection h with h2
            subst h2
            obtain ⟨e, hef, hto⟩ := emitPages_timeout H (loadConfig none) team.id
              team.name team.sequence.length cb _ _ _ hemit p hp
            have hmem : e.task ∈ tasks :=
              buildFilesGo_tasks H tasks team.sequence 0 none _ hbf e hef
            rw [hto, hnone e.task hmem]
            rfl

/-- C10 witness: the defaults at concrete inputs — a config header
missing every recognised field, the gate hash embedded in concrete
admin and testing pages, and the 15-minute timeout on a concrete
generated team whose tasks set no timeout. -/
theorem config_defaults_witness :
    (loadConfig (some "---\ntitle: hi\n---\nBody")).admin_password = "treasure2024" ∧
    containsStr (generateAdminHtml hashId [] (loadConfig none).admin_password)
      (sha256 hashId "treasure2024") = true ∧
    containsStr (generateTestingHtml hashId [] [] [] [] (loadConfig none).admin_password)
      (sha256 hashId "treasure2024") = true ∧
    ∃ tp, genTeam hashId (loadConfig none) tasksA teamA 0 = .ok tp ∧
      ∀ p ∈ tp.taskPages, p.timeoutMinutes = some 15 :=
  ⟨(config_defaults.2.1 "---\ntitle: hi\n---\nBody").1 (by decide),
   config_defaults.2.2.1 hashId [],
   config_defaults.2.2.2.1 hashId [] [] [] [],
   _, rfl,
   config_defaults.2.2.2.2 hashId tasksA teamA 0 _ (by decide) rfl⟩

/-! ### Claim C6: malformed sequence headers -/

/-- C6 counterexample: loading a team file whose header has no
`sequence` key raises no error at all — `loadTeams` is total — and the
record's sequence silently becomes the empty list, exactly what the
claim says must not happen. -/
theorem sequence_silently_empty_counterexample :
    (parseTeamFile "team1" "---\nname: Reds\nstart_code: S1\n---\nWelcome").sequenceVal
      = FMValue.arr [] ∧
    (parseMarkdownWithFrontmatter "---\nname: Reds\nstart_code: S1\n---\nWelcome").1.lookup
      "sequence" = none := by
  constructor <;> decide

/-- C6 amended: a team header without a parseable `sequence` list does
not fail at load time — the sequence silently becomes the empty array
(`frontmatter.sequence || []`); the failure only surfaces later as an
uncaught `TypeError` when `generate()` reads `files[0].filename` for
that team's start page. -/
theorem sequence_silently_empty (teamId content : String)
    (h : (parseMarkdownWithFrontmatter content).1.lookup "sequence" = none) :
    (parseTeamFile teamId content).sequenceVal = FMValue.arr [] ∧
    ∀ (H : HashPrims) (cfg : Config) (tasks : List Task) (team : Team)
      (cb : Nat) (sc : String),
      team.startCode = some sc → team.sequence = [] →
      genTeam H cfg tasks team cb = Except.error JsError.typeError := by
  constructor
  · simp [parseTeamFile, h]
  · intro H cfg tasks team cb sc hsc hseq
    simp [genTeam, hsc, hseq, buildFiles, buildFilesGo]

/-- C6 witness: a content file with no frontmatter at all loads with an
empty sequence, and generating a team with an empty sequence crashes
with a `TypeError`. -/
theorem sequence_silently_empty_witness :
    (parseTeamFile "team2" "just a body").sequenceVal = FMValue.arr [] ∧
    genTeam hashId configDefaults [] ⟨"team2", "T", some "S", [], "w"⟩ 0 =
      Except.error JsError.typeError :=
  ⟨(sequence_silently_empty "team2" "just a body" (by decide)).1,
   (sequence_silently_empty "team2" "just a body" (by decide)).2 hashId
      configDefaults [] ⟨"team2", "T", some "S", [], "w"⟩ 0 "S" rfl rfl⟩

end TreasureHunt
